import Mathlib

/-!
# Verification of the EdgePrompt runner core

A shallow embedding, in Lean 4, of the LLM orchestration and multi-stage
validation pipeline of the EdgePrompt research runner
(`research/runner/` in the repository).  Python is modelled as follows:

* Python/JSON values become the inductive `PyVal`; Python `float` is
  modelled as a rational number (`ℚ`), Python `int` as `Int`.
* Python dictionaries become insertion-ordered association lists
  (`List (String × PyVal)`), matching CPython's ordered-dict semantics.
* Fallible code returns `Except PyErr α`; an uncaught Python exception is
  `Except.error`.
* External collaborators (the HTTP clients, the config loader, the LLM
  repair callable) are taken as explicit function arguments, so theorems
  quantify over all of their possible behaviours.

Each definition is translated from the source file named in its doc
comment.
-/

namespace EdgePrompt

/-- Python exception values, reduced to the constructor and message that the
runner's `except` clauses can observe. -/
inductive PyErr where
  | attributeError (msg : String)
  | valueError (msg : String)
  | typeError (msg : String)
  | zeroDivisionError
  | runtimeError (msg : String)
  deriving DecidableEq

/-- Python / JSON values as handled by `research/runner/json_utils.py`.
`float` is modelled as `ℚ`, `int` as `Int`; dictionaries are
insertion-ordered association lists. -/
inductive PyVal where
  | pnone
  | pbool (b : Bool)
  | pint (n : Int)
  | pfloat (q : ℚ)
  | pstr (s : String)
  | plist (xs : List PyVal)
  | pdict (kvs : List (String × PyVal))

/-- Characters that Python's default `str.strip()` (and `str.split()` with no
argument) treat as whitespace: space, tab, newline, carriage return,
vertical tab, form feed. -/
def pyIsSpace (c : Char) : Bool :=
  c = ' ' || c = '\t' || c = '\n' || c = '\x0d' || c = '\x0b' || c = '\x0c'

/-- Python `str.strip()` on a list of characters: drop leading and trailing
whitespace. -/
def pyStripL (s : List Char) : List Char :=
  ((s.dropWhile pyIsSpace).reverse.dropWhile pyIsSpace).reverse

/-- Python `str.strip()` on a `String`. -/
def pyStrip (s : String) : String :=
  ⟨pyStripL s.data⟩

/-- Helper for `pySplitWsL`: accumulate the current word (reversed). -/
def splitWsAux : List Char → List Char → List (List Char)
  | [], acc => if acc.isEmpty then [] else [acc.reverse]
  | c :: cs, acc =>
    if pyIsSpace c then
      if acc.isEmpty then splitWsAux cs [] else acc.reverse :: splitWsAux cs []
    else splitWsAux cs (c :: acc)

/-- Python `str.split()` with no separator: split on runs of whitespace,
discarding empty pieces.  Used by the runner to estimate token counts
(`len(text.split())`). -/
def pySplitWsL (s : List Char) : List (List Char) :=
  splitWsAux s []

/-- Number of whitespace-separated words of a string, Python's
`len(s.split())`. -/
def pyWordCount (s : String) : Nat :=
  (pySplitWsL s.data).length

/-- Association-list lookup, Python `d.get(k)` / `k in d`. -/
def dictGet (kvs : List (String × PyVal)) (k : String) : Option PyVal :=
  (kvs.find? (fun kv => kv.1 = k)).map (·.2)

/-- Python `k in d`. -/
def dictHas (kvs : List (String × PyVal)) (k : String) : Bool :=
  (dictGet kvs k).isSome

/-- Python `d[k] = v`: update in place if the key exists (keeping its
position), otherwise append, matching CPython's insertion-order
semantics. -/
def dictSet (kvs : List (String × PyVal)) (k : String) (v : PyVal) :
    List (String × PyVal) :=
  if dictHas kvs k then
    kvs.map (fun kv => if kv.1 = k then (k, v) else kv)
  else
    kvs ++ [(k, v)]

/-! ## JSON Extraction (`research/runner/json_utils.py`, `extract_json_from_text`)

Only the input guard of `extract_json_from_text` (lines 28–30) is concrete
code here; the regex/`json.loads` cascade that follows the guard is taken
as an explicit function argument `rest`, so every theorem about the guard
holds for all possible behaviours of the cascade. -/

/-- The runtime value passed to `extract_json_from_text`, which is annotated
`str` but defensively checked: it may be `None`, a string, or any other
object (of which the guard only observes truthiness, via `not text`). -/
inductive TextInput where
  | noneInput
  | strInput (s : String)
  | otherInput (truthy : Bool)
  deriving DecidableEq

/-- Python falsiness of the `text` argument (`not text`). -/
def textFalsy : TextInput → Bool
  | .noneInput => true
  | .strInput s => s = ""
  | .otherInput t => !t

/-- Python `isinstance(text, str)`. -/
def textIsStr : TextInput → Bool
  | .strInput _ => true
  | _ => false

/-- `extract_json_from_text` (json_utils.py lines 16–109).  The guard
`if not text or not isinstance(text, str) or text.strip() == ""` returns
`(None, "empty_input")`; otherwise the parsing cascade `rest` runs on the
string.  `rest` is the embedding parameter for lines 32–109. -/
def extract_json_from_text (rest : String → Option PyVal × String) :
    TextInput → Option PyVal × String
  | t =>
    if textFalsy t || !textIsStr t ||
        (match t with | .strInput s => pyStrip s = "" | _ => false) then
      (none, "empty_input")
    else
      match t with
      | .strInput s => rest s
      | _ => (none, "empty_input")

/-! ## Python primitive helpers used by `validate_and_fix_json_structure` -/

/-- Python `str.lower()` (ASCII case folding suffices for the runner's
inputs). -/
def pyLower (s : String) : String :=
  ⟨s.data.map Char.toLower⟩

/-- Python truthiness `bool(v)`. -/
def pyTruthy : PyVal → Bool
  | .pnone => false
  | .pbool b => b
  | .pint n => n != 0
  | .pfloat q => q != 0
  | .pstr s => s ≠ ""
  | .plist xs => !xs.isEmpty
  | .pdict kvs => !kvs.isEmpty

/-- Python `isinstance(v, (int, float))`.  A Python `bool` is a subclass of
`int`, so it counts as numeric here. -/
def isNumericPy : PyVal → Bool
  | .pbool _ => true
  | .pint _ => true
  | .pfloat _ => true
  | _ => false

/-- Python `isinstance(v, bool)`. -/
def isBoolPy : PyVal → Bool
  | .pbool _ => true
  | _ => false

/-- Python `isinstance(v, str)`. -/
def isStrPy : PyVal → Bool
  | .pstr _ => true
  | _ => false

/-- Python `isinstance(v, dict)`. -/
def isDictPy : PyVal → Bool
  | .pdict _ => true
  | _ => false

/-- Helper for `splitOnChar`: accumulate the current piece (reversed). -/
def splitOnCharAux (sep : Char) : List Char → List Char → List (List Char)
  | [], acc => [acc.reverse]
  | c :: cs, acc =>
    if c = sep then acc.reverse :: splitOnCharAux sep cs []
    else splitOnCharAux sep cs (c :: acc)

/-- Python `s.split(sep)` for a one-character separator: keeps empty pieces,
`"".split(sep) == [""]`. -/
def splitOnChar (sep : Char) (s : List Char) : List (List Char) :=
  splitOnCharAux sep s []

/-- Numeric value of a digit list (assumed to pass `Char.isDigit`). -/
def digitsVal (l : List Char) : ℕ :=
  l.foldl (fun a c => a * 10 + (c.toNat - 48)) 0

/-- Leading `+`/`-` sign: returns (isNegative, rest). -/
def parseSign : List Char → Bool × List Char
  | '+' :: r => (false, r)
  | '-' :: r => (true, r)
  | r => (false, r)

/-- Unsigned decimal mantissa: `d+`, `d+.d*` or `.d+`. -/
def parseUnsignedDec (l : List Char) : Option ℚ :=
  match splitOnChar '.' l with
  | [a] =>
    if !a.isEmpty && a.all Char.isDigit then some ((digitsVal a : ℕ) : ℚ) else none
  | [a, b] =>
    if (!a.isEmpty || !b.isEmpty) && a.all Char.isDigit && b.all Char.isDigit then
      some (((digitsVal a : ℕ) : ℚ) + ((digitsVal b : ℕ) : ℚ) / ((10 : ℚ) ^ b.length))
    else none
  | _ => none

/-- Signed decimal integer (for a float exponent). -/
def parseSignedInt (l : List Char) : Option ℤ :=
  match parseSign l with
  | (neg, r) =>
    if !r.isEmpty && r.all Char.isDigit then
      some (if neg then -((digitsVal r : ℕ) : ℤ) else ((digitsVal r : ℕ) : ℤ))
    else none

/-- Python `float(s)` on a string, modelled over ℚ: surrounding whitespace is
ignored, an optional sign, decimal mantissa and optional `e`/`E` exponent are
accepted.  (`inf`/`nan`/underscore forms are not representable in ℚ and are
not produced by the runner's inputs; they parse to `none`, i.e.
`ValueError`.) -/
def pyFloatOfString (s : String) : Option ℚ :=
  match parseSign ((pyLower ⟨pyStripL s.data⟩).data) with
  | (neg, body) =>
    match splitOnChar 'e' body with
    | [m] => (parseUnsignedDec m).map (fun q => if neg then -q else q)
    | [m, e] =>
      match parseUnsignedDec m, parseSignedInt e with
      | some q, some ex =>
        some ((if neg then -q else q) * (10 : ℚ) ^ ex)
      | _, _ => none
    | _ => none

/-- Python `float(v)` on an arbitrary value: numbers pass through
(`float(True) == 1.0`), strings are parsed (`ValueError` on failure), and
any other type raises `TypeError`. -/
def pyFloatOfVal : PyVal → Except PyErr ℚ
  | .pbool b => .ok (if b then 1 else 0)
  | .pint n => .ok ((n : ℤ) : ℚ)
  | .pfloat q => .ok q
  | .pstr s =>
    match pyFloatOfString s with
    | some q => .ok q
    | none => .error (.valueError ("could not convert string to float: " ++ s))
  | _ => .error (.typeError "float() argument must be a string or a real number")

/-! ## `validate_and_fix_json_structure` (json_utils.py lines 112–173) -/

/-- The dict comprehension `{k: default_values.get(k) for k in required_keys}`
(json_utils.py lines 129, 207, 297): one entry per required key, with the
default value or `None`. -/
def defaultsObject (requiredKeys : List String) (defaults : List (String × PyVal)) :
    List (String × PyVal) :=
  requiredKeys.foldl (fun d k => dictSet d k ((dictGet defaults k).getD .pnone)) []

/-- The string truthy-set of json_utils.py line 144:
`value.lower() in ('true', 'yes', 'y', '1', 't')`. -/
def passedTruthySet : List String :=
  ["true", "yes", "y", "1", "t"]

/-- The `try:`-block of the score coercion (json_utils.py lines 150–159),
turning a non-numeric `"score"` value into a float.  `ValueError`/`TypeError`
results are caught by the caller's `except`; a zero denominator in the
`"a/b"` fraction form raises `ZeroDivisionError`, which line 160 does not
catch. -/
def scoreConvTry (v defaultScoreVal : PyVal) : Except PyErr ℚ :=
  match v with
  | .pstr s =>
    if s.data.contains '/' then
      match splitOnChar '/' s.data with
      | [num, denom] =>
        match pyFloatOfString ⟨num⟩, pyFloatOfString ⟨denom⟩ with
        | some a, some b =>
          if b = 0 then .error .zeroDivisionError else .ok (a / b)
        | some _, none => .error (.valueError ("could not convert string to float: " ++ (⟨denom⟩ : String)))
        | none, _ => .error (.valueError ("could not convert string to float: " ++ (⟨num⟩ : String)))
      | _ => .error (.valueError "not enough values to unpack")
    else
      match pyFloatOfString s with
      | some q => .ok q
      | none => .error (.valueError ("could not convert string to float: " ++ s))
  | _ => pyFloatOfVal defaultScoreVal

/-- Score normalization, json_utils.py lines 163–167.  Note in the source
these lines are nested *inside* the `if not isinstance(score, (int, float))`
branch, so they only ever see a freshly converted float. -/
def normalizeScore (q : ℚ) : ℚ :=
  if 1 < q ∧ q ≤ 10 then q / 10
  else if q < 0 ∨ 1 < q then max 0 (min 1 q)
  else q

/-- Feedback coercion, json_utils.py lines 169–171: a non-string
`"feedback"` value is replaced by `str(value)`. -/
def feedbackFix (pyStr : PyVal → String) (kvs : List (String × PyVal)) :
    List (String × PyVal) :=
  match dictGet kvs "feedback" with
  | some v => if isStrPy v then kvs else dictSet kvs "feedback" (.pstr (pyStr v))
  | none => kvs

/-- `validate_and_fix_json_structure` (json_utils.py lines 112–173).
`pyStr` is the model of Python `str(...)` used by the feedback coercion
(line 171); theorems quantify over it.  The whole call is `Except`-valued
because the score-coercion path can raise (`ZeroDivisionError` at line 155,
or an unparseable default at line 161). -/
def validate_and_fix_json_structure (pyStr : PyVal → String) (parsed : PyVal)
    (requiredKeys : List String) (defaults : List (String × PyVal)) :
    Except PyErr PyVal :=
  match parsed with
  | .pdict kvs0 =>
    -- lines 132–138: add defaults for missing required keys (only keys that
    -- have a default).  Python iterates the missing keys as a set, whose
    -- order is unspecified; we iterate them in `requiredKeys` order, which
    -- only affects the insertion order of the added keys.
    let kvs1 := requiredKeys.foldl (fun d k =>
      if dictHas d k then d
      else if dictHas defaults k then dictSet d k ((dictGet defaults k).getD .pnone)
      else d) kvs0
    -- lines 141–146: coerce "passed" to bool
    let kvs2 :=
      match dictGet kvs1 "passed" with
      | some v =>
        if isBoolPy v then kvs1
        else
          match v with
          | .pstr s => dictSet kvs1 "passed" (.pbool (passedTruthySet.contains (pyLower s)))
          | _ => dictSet kvs1 "passed" (.pbool (pyTruthy v))
      | none => kvs1
    -- lines 148–167: coerce "score" to float, then (only on this branch)
    -- normalize; numeric scores skip the entire block.
    match dictGet kvs2 "score" with
    | some v =>
      if isNumericPy v then
        -- numeric score: the whole conversion/normalization block is skipped
        let kvs4 := feedbackFix pyStr kvs2
        .ok (.pdict kvs4)
      else
        let defaultScoreVal := (dictGet defaults "score").getD (.pfloat (1/2))
        let conv : Except PyErr ℚ :=
          match scoreConvTry v defaultScoreVal with
          | .ok q => .ok q
          | .error (.valueError _) => pyFloatOfVal defaultScoreVal
          | .error (.typeError _) => pyFloatOfVal defaultScoreVal
          | .error e => .error e
        match conv with
        | .ok q =>
          let kvs3 := dictSet kvs2 "score" (.pfloat (normalizeScore q))
          let kvs4 := feedbackFix pyStr kvs3
          .ok (.pdict kvs4)
        | .error e => .error e
    | none =>
      let kvs4 := feedbackFix pyStr kvs2
      .ok (.pdict kvs4)
  | _ =>
    -- lines 126–129: non-dict input is replaced by the defaults object
    .ok (.pdict (defaultsObject requiredKeys defaults))

/-- The default required keys of `parse_llm_json_output` /
`repair_json_with_llm` (json_utils.py lines 192, 235). -/
def stdRequiredKeys : List String :=
  ["passed", "score", "feedback"]

/-- The default `default_values` dict (json_utils.py lines 195–199,
238–242). -/
def stdDefaults : List (String × PyVal) :=
  [("passed", .pbool false), ("score", .pfloat (1/2)),
   ("feedback", .pstr "Failed to parse validation result.")]

/-! ## `repair_json_with_llm` (json_utils.py lines 213–297) -/

/-- The repair prompt of json_utils.py lines 263–274 (an f-string embedding
the current text and the comma-joined quoted required keys). -/
def mkRepairPrompt (requiredKeys : List String) (currentText : String) : String :=
  "Fix the following text into valid JSON. Return ONLY the fixed JSON, nothing else.\n\nTEXT TO FIX:\n```\n"
    ++ currentText
    ++ "\n```\n\nYour response should be ONLY a valid JSON object with these exact keys:\n"
    ++ String.intercalate ", " (requiredKeys.map (fun k => "\"" ++ k ++ "\""))
    ++ "\n\nDo NOT include markdown formatting, code blocks, or any text outside the JSON object.\n"

/-- The `while attempt < max_attempts` loop of json_utils.py lines 258–293,
structurally recursive on the remaining number of attempts.  `extract` is
the behaviour of `extract_json_from_text` on the repaired texts and
`repairFn` the behaviour of `llm_repair_func` (the `model_data` argument is
passed through unchanged by the source, so it is dropped here).  The second
component of the result counts the `llm_repair_func` calls made — ghost
instrumentation, not present in the source. -/
def repairLoopAux (pyStr : PyVal → String) (extract : String → Option PyVal × String)
    (repairFn : String → String) (requiredKeys : List String)
    (defaults : List (String × PyVal)) :
    ℕ → String → Except PyErr PyVal × ℕ
  | 0, _ => (.ok (.pdict (defaultsObject requiredKeys defaults)), 0)
  | fuel + 1, cur =>
    let prompt := mkRepairPrompt requiredKeys cur
    let repaired := repairFn prompt
    -- line 280: if the repaired text is identical to the input, break
    -- (falling through to the defaults object of line 297)
    if repaired = cur then (.ok (.pdict (defaultsObject requiredKeys defaults)), 1)
    else
      match (extract repaired).1 with
      | some pj => (validate_and_fix_json_structure pyStr pj requiredKeys defaults, 1)
      | none =>
        let p := repairLoopAux pyStr extract repairFn requiredKeys defaults fuel repaired
        (p.1, p.2 + 1)

/-- `repair_json_with_llm` (json_utils.py lines 213–297).  If extraction
already succeeds on `text` the loop never runs (lines 245–249); otherwise
up to `maxAttempts` repair calls are made.  The second component counts the
repair calls (ghost instrumentation). -/
def repair_json_with_llm (pyStr : PyVal → String) (extract : String → Option PyVal × String)
    (repairFn : String → String) (requiredKeys : List String)
    (defaults : List (String × PyVal)) (maxAttempts : ℕ) (text : String) :
    Except PyErr PyVal × ℕ :=
  match (extract text).1 with
  | some pj => (validate_and_fix_json_structure pyStr pj requiredKeys defaults, 0)
  | none => repairLoopAux pyStr extract repairFn requiredKeys defaults maxAttempts text

/-! ## Model Execution Abstraction (`research/runner/model_manager.py`)

`_execute_model_call` delegates timing and token accounting to the
`MetricsCollector` instance injected by `RunnerCore`.  The class defined in
`research/runner/metrics_collector.py` (lines 21–227) has the attributes
set in `__init__` (`collection_active`, `collection_thread`, `metrics_data`,
`start_time`, …) and the methods `start_collection`, `_collection_loop`,
`stop_collection`, `_calculate_summary`, `get_time_series_data` and
`get_basic_metrics` — and no others.  In particular `start_timer`,
`stop_timer`, `record_tokens`, `get_results` and `merge_metrics` are not
defined anywhere in the repository, so attribute lookup on those names
raises `AttributeError`. -/

/-- The `MetricsCollector` state relevant to `_execute_model_call`: the
`start_time` attribute initialized to `None` in `__init__` (line 51) and set
to a timestamp by `start_collection` (line 78). -/
structure MetricsCollectorState where
  start_time : Option ℚ

/-- Attribute lookup `self.metrics_collector.start_timer` — the class
defines no such method, so Python raises `AttributeError`. -/
def mcStartTimer (_ : MetricsCollectorState) : Except PyErr Unit :=
  .error (.attributeError "'MetricsCollector' object has no attribute 'start_timer'")

/-- Attribute lookup `self.metrics_collector.stop_timer` — undefined, raises
`AttributeError`. -/
def mcStopTimer (_ : MetricsCollectorState) : Except PyErr Unit :=
  .error (.attributeError "'MetricsCollector' object has no attribute 'stop_timer'")

/-- Attribute lookup `self.metrics_collector.record_tokens` — undefined,
raises `AttributeError`. -/
def mcRecordTokens (_ : MetricsCollectorState) (_ _ : ℕ) : Except PyErr Unit :=
  .error (.attributeError "'MetricsCollector' object has no attribute 'record_tokens'")

/-- Attribute lookup `self.metrics_collector.get_results` — undefined,
raises `AttributeError`. -/
def mcGetResults (_ : MetricsCollectorState) : Except PyErr PyVal :=
  .error (.attributeError "'MetricsCollector' object has no attribute 'get_results'")

/-- Attribute lookup `self.metrics_collector.merge_metrics` — undefined,
raises `AttributeError`. -/
def mcMergeMetrics (_ : MetricsCollectorState) (_ : List PyVal) : Except PyErr PyVal :=
  .error (.attributeError "'MetricsCollector' object has no attribute 'merge_metrics'")

/-- The result dictionary built by `_execute_model_call`
(model_manager.py lines 290–295 on success, 305–311 on failure). -/
structure ExecCallResult where
  outputText : Option String
  error : Option String
  inputTokens : ℕ
  outputTokens : ℕ
  metrics : PyVal

/-- Rendering of a caught exception by `str(e)` in the handlers. -/
def pyErrStr : PyErr → String
  | .attributeError m => m
  | .valueError m => m
  | .typeError m => m
  | .zeroDivisionError => "division by zero"
  | .runtimeError m => m

/-- `_execute_model_call` (model_manager.py lines 270–311).  `apiCall` is
the provider-specific `api_call_func`; `mc` the injected metrics collector
state.  The `try:` block runs `start_timer → api_call_func → stop_timer →
record_tokens → get_results`; the `except` handler stops the timer when
`start_time` is truthy and rebuilds the result dict, calling
`get_results()` for the metrics field. -/
def executeModelCall (prompt : String)
    (apiCall : Except PyErr (String × ℕ × ℕ)) (mc : MetricsCollectorState) :
    Except PyErr ExecCallResult :=
  let tryBlock : Except PyErr ExecCallResult := do
    let _ ← mcStartTimer mc
    let (outputText, inputTokens, outputTokens) ← apiCall
    let _ ← mcStopTimer mc
    let _ ← mcRecordTokens mc inputTokens outputTokens
    let performanceMetrics ← mcGetResults mc
    pure { outputText := some outputText, error := none,
           inputTokens := inputTokens, outputTokens := outputTokens,
           metrics := performanceMetrics }
  match tryBlock with
  | .ok r => .ok r
  | .error e =>
    -- except handler, lines 299–311
    let stopped : Except PyErr Unit :=
      if (mc.start_time).isSome then mcStopTimer mc else .ok ()
    match stopped with
    | .error e2 => .error e2
    | .ok _ =>
      match mcGetResults mc with
      | .error e2 => .error e2
      | .ok m =>
        .ok { outputText := none, error := some (pyErrStr e),
              inputTokens := pyWordCount prompt, outputTokens := 0,
              metrics := m }

/-! ## Run Orchestrator (`research/runner/runner_core.py`)

`_run_cloud_baseline` (lines 285–343) is embedded with its four step
helpers as explicit arguments, so theorems quantify over every behaviour of
the steps (including raising).  The other three run helpers
(`_run_cloud_edgeprompt`, `_run_edge_baseline`, `_run_edge_edgeprompt`)
share the same try/except + `merge_metrics` tail. -/

/-- Python `obj.get(key, default)`: succeeds on dicts, raises
`AttributeError` on anything else. -/
def pyGet (v : PyVal) (k : String) (dflt : PyVal) : Except PyErr PyVal :=
  match v with
  | .pdict kvs => .ok ((dictGet kvs k).getD dflt)
  | _ => .error (.attributeError "object has no attribute 'get'")

/-- The mutable `run_results` dict of a run helper, together with the local
`all_metrics` list (a Python local, carried here in the same record). -/
structure Run1State where
  status : String
  error : Option String
  steps : List (String × PyVal)
  output : Option PyVal
  finalDecision : Option PyVal
  totalMetrics : Option PyVal
  allMetrics : List PyVal

/-- Initial `run_results = {"status": "started", "steps": {}}` with the
empty `all_metrics` list (runner_core.py lines 291–292). -/
def run1Init : Run1State :=
  { status := "started", error := none, steps := [], output := none,
    finalDecision := none, totalMetrics := none, allMetrics := [] }

/-- The `try:` block of `_run_cloud_baseline` (runner_core.py lines
294–334).  Returns the state accumulated so far together with the exception
that escaped the block, if any; the state survives the exception because
`run_results` is mutated in place. -/
def run_cloud_baseline_try (stepQ : Except PyErr PyVal)
    (stepSA : PyVal → Except PyErr PyVal)
    (stepBE : PyVal → PyVal → Except PyErr PyVal)
    (stepCE : PyVal → Except PyErr PyVal) :
    Run1State × Option PyErr :=
  match stepQ with
  | .error e => (run1Init, some e)
  | .ok q =>
    let st := { run1Init with steps := dictSet run1Init.steps "generated_question" q }
    match pyGet q "metrics" .pnone with
    | .error e => (st, some e)
    | .ok qm =>
      let st := { st with allMetrics := st.allMetrics ++ [qm] }
      match pyGet q "error" .pnone with
      | .error e => (st, some e)
      | .ok qerr =>
        if pyTruthy qerr then
          -- f-string detail of the embedded error value omitted from the message
          (st, some (.runtimeError "Baseline Question Generation failed"))
        else
          match pyGet q "llm_output" .pnone with
          | .error e => (st, some e)
          | .ok qt =>
            if !pyTruthy qt then (st, some (.valueError "Baseline question text is empty."))
            else
              match stepSA qt with
              | .error e => (st, some e)
              | .ok sa =>
                let st := { st with steps := dictSet st.steps "student_answer" sa }
                match pyGet sa "metrics" .pnone with
                | .error e => (st, some e)
                | .ok sam =>
                  let st := { st with allMetrics := st.allMetrics ++ [sam] }
                  match pyGet sa "error" .pnone with
                  | .error e => (st, some e)
                  | .ok saerr =>
                    if pyTruthy saerr then
                      (st, some (.runtimeError "Baseline Student Answer failed"))
                    else
                      match pyGet sa "llm_output" .pnone with
                      | .error e => (st, some e)
                      | .ok sat =>
                        if !pyTruthy sat then
                          (st, some (.valueError "Baseline student answer text is empty."))
                        else
                          match stepBE qt sat with
                          | .error e => (st, some e)
                          | .ok be =>
                            let st := { st with
                              steps := dictSet st.steps "baseline_evaluation" be }
                            match pyGet be "metrics" .pnone with
                            | .error e => (st, some e)
                            | .ok bem =>
                              let st := { st with allMetrics := st.allMetrics ++ [bem] }
                              match stepCE sat with
                              | .error e => (st, some e)
                              | .ok ce =>
                                let st := { st with
                                  steps := dictSet st.steps "constraint_enforcement" ce,
                                  output := some sat }
                                match pyGet be "parsed_evaluation" (.pdict []) with
                                | .error e => (st, some e)
                                | .ok pe =>
                                  match pyGet pe "passed" (.pbool false),
                                        pyGet ce "passed" (.pbool false),
                                        pyGet pe "score" (.pfloat 0) with
                                  | .ok pev, .ok cev, .ok sv =>
                                    let st := { st with
                                      finalDecision := some (.pdict
                                        [("passed_evaluation", pev),
                                         ("passed_constraints", cev),
                                         ("final_score", sv)]),
                                      status := "completed" }
                                    (st, none)
                                  | .error e, _, _ => (st, some e)
                                  | _, .error e, _ => (st, some e)
                                  | _, _, .error e => (st, some e)

/-- `_run_cloud_baseline` (runner_core.py lines 285–343): the try/except of
lines 294–339 followed by the unconditional
`run_results["total_metrics"] = self.metrics_collector.merge_metrics(...)`
of line 342. -/
def run_cloud_baseline (stepQ : Except PyErr PyVal)
    (stepSA : PyVal → Except PyErr PyVal)
    (stepBE : PyVal → PyVal → Except PyErr PyVal)
    (stepCE : PyVal → Except PyErr PyVal)
    (mc : MetricsCollectorState) : Except PyErr Run1State :=
  let tr := run_cloud_baseline_try stepQ stepSA stepBE stepCE
  let s0 := tr.1
  let st :=
    match tr.2 with
    | some e =>
      { s0 with
        status := "failed"
        error := some ("Run 1 Failed: " ++ pyErrStr e) }
    | none => s0
  match mcMergeMetrics mc (st.allMetrics.filter pyTruthy) with
  | .error e => .error e
  | .ok m => .ok { st with totalMetrics := some m }

/-- One of the four per-run slots of a `run_data` record: still the initial
`{"status": "pending"}` placeholder, or the dict returned by a run
helper. -/
inductive RunSlot where
  | pending
  | result (r : Run1State)

/-- Whether a slot is still the `{"status": "pending"}` placeholder. -/
def RunSlot.isPending : RunSlot → Bool
  | .pending => true
  | .result _ => false

/-- The `run_data` structure created by `_create_run_data_struct`
(runner_core.py lines 1356–1369), restricted to the fields the claims
observe. -/
structure RunData where
  run_1 : RunSlot
  run_2 : RunSlot
  run_3 : RunSlot
  run_4 : RunSlot
  error : Option String

/-- The per-(test case × edge model) body of `run_test_suite`
(runner_core.py lines 216–265): initialize `run_data` with four `pending`
run slots, execute runs 1–4 in order inside one `try:`, set
`run_data["error"]` when any of them raises, and (via `finally`) log
whatever `run_data` holds.  The four runs are passed as thunks so that a
raise in an earlier run visibly prevents the later ones from being
invoked.  The returned value is the record handed to
`result_logger.log_result`. -/
def runTestCaseBody (r1 r2 r3 r4 : Unit → Except PyErr Run1State) : RunData :=
  let rd : RunData :=
    { run_1 := .pending, run_2 := .pending, run_3 := .pending,
      run_4 := .pending, error := none }
  match r1 () with
  | .error e => { rd with error := some ("Run Execution Failed: " ++ pyErrStr e) }
  | .ok v1 =>
    let rd := { rd with run_1 := .result v1 }
    match r2 () with
    | .error e => { rd with error := some ("Run Execution Failed: " ++ pyErrStr e) }
    | .ok v2 =>
      let rd := { rd with run_2 := .result v2 }
      match r3 () with
      | .error e => { rd with error := some ("Run Execution Failed: " ++ pyErrStr e) }
      | .ok v3 =>
        let rd := { rd with run_3 := .result v3 }
        match r4 () with
        | .error e => { rd with error := some ("Run Execution Failed: " ++ pyErrStr e) }
        | .ok v4 => { rd with run_4 := .result v4 }

/-! ## Mock backend (`research/runner/model_manager.py`, `MockModel.generate`, lines 60–130) -/

/-- Substring test, Python `pat in s` on lists of characters. -/
def hasSubstr (pat : List Char) : List Char → Bool
  | [] => pat.isEmpty
  | c :: cs => pat.isPrefixOf (c :: cs) || hasSubstr pat cs

/-- Python `sub in s` on strings. -/
def strContains (sub s : String) : Bool :=
  hasSubstr sub.data s.data

/-- The generation parameters (`**kwargs`) that `MockModel.generate`
observes: the truthiness of `json_output` and
`response_format.get("type")`. -/
structure GenParams where
  jsonOutput : Bool
  responseFormatType : Option String

/-- The values drawn from the global (unseeded) `random` generator during
one `MockModel.generate` call: `random.randint(6, 9)` (cloud score),
`random.choice([True, True, False])` (edge passed),
`random.uniform(0.5, 1.0)` (edge score), `random.randint(40, 120)` (edge
word count).  The module-level generator's hidden state advances on every
draw, so two successive calls receive unrelated draw records. -/
structure MockDraws where
  cloudScore : ℤ
  edgePassed : Bool
  edgeScore : ℚ
  edgeWordCount : ℤ

/-- The `generated_text` produced by `MockModel.generate`: either a plain
format string, or the `json.dumps` rendering of one of two fixed-shape
mock objects.  `json.dumps` is injective on each fixed shape (distinct
field values produce distinct JSON text), so the dumps output is
represented structurally. -/
inductive GenText where
  | plain (s : String)
  | cloudJson (role : String) (modelId : String) (score : ℤ)
  | edgeJson (passed : Bool) (score : ℚ) (wordCount : ℤ)
  deriving DecidableEq

/-- `len(generated_text.split())` for each `GenText` shape.  For the JSON
shapes this is the word count of the `json.dumps` rendering: the boolean
and numeric field values contain no whitespace, and the feedback strings
are fixed, so the count does not depend on the drawn values (16 words for
the edge shape, and a fixed part plus the words of the embedded
`model_id`/role for the cloud shape). -/
def genWordCount : GenText → ℕ
  | .plain s => pyWordCount s
  | .cloudJson role modelId _ => 15 + pyWordCount role + pyWordCount modelId
  | .edgeJson _ _ _ => 16

/-- The dict returned by `MockModel.generate` (model_manager.py lines
118–128), with the nested `metrics` dict flattened into fields. -/
structure MockResult where
  outputKey : String
  generatedText : GenText
  inputTokens : ℕ
  outputTokens : ℕ
  latencyMs : ℚ
  tokensPerSecond : ℚ
  deriving DecidableEq

/-- `MockModel.generate` (model_manager.py lines 60–130).  The
`time.sleep(delay)` only delays; its duration feeds the `latency_ms`
metric.  `draws` is the record of values obtained from the global `random`
generator during this call. -/
def mockGenerate (modelId : String) (modelType : String) (prompt : String)
    (params : GenParams) (draws : MockDraws) : MockResult :=
  let delay : ℚ :=
    min (if modelType = "edge_llm" then 1/2 else 3/2)
      ((prompt.length : ℚ) * (2 / 10000))
  let expectJson :=
    params.jsonOutput || params.responseFormatType = some "json_object" ||
      strContains "json" (pyLower prompt)
  let (generatedText, outputKey) :=
    if modelType = "cloud_llm" then
      let text :=
        if expectJson then
          GenText.cloudJson
            (if strContains "teacher" (pyLower prompt) then "teacher" else "student")
            modelId draws.cloudScore
        else
          .plain ("MOCK CloudLLM RESPONSE from " ++ modelId ++
            ": This simulates a persona response.")
      (text, "llm_output")
    else
      let text :=
        if expectJson then
          GenText.edgeJson draws.edgePassed draws.edgeScore draws.edgeWordCount
        else
          .plain ("MOCK EdgeLLM RESPONSE from " ++ modelId ++
            ": This simulates an edge model response.")
      (text, "generated_text")
  let promptTokens := pyWordCount prompt
  let completionTokens := genWordCount generatedText
  { outputKey := outputKey
    generatedText := generatedText
    inputTokens := promptTokens
    outputTokens := completionTokens
    latencyMs := delay * 1000
    tokensPerSecond := if 0 < delay then (completionTokens : ℚ) / delay else 0 }

/-! ## Multi-Stage Validation Engine
(`research/runner/evaluation_engine.py`, `validate_with_sequence`, lines 327–532)

The configuration loader, template engine, LLM executor and JSON parser are
abstracted into a per-stage behaviour: for each position of the sorted
stage list, the environment says how template processing and
execute-then-parse turned out.  When the parse succeeds,
`_parse_json_from_llm_output` guarantees (via `parse_llm_json_output` /
`validate_and_fix_json_structure`, and by raising otherwise) a dict that
contains the keys `passed` (bool), `score` (numeric) and `feedback` (str),
so the parsed payload is carried in typed form. -/

/-- One validation stage descriptor, with `dict.get` defaults left as
`Option`: `id` defaults to `"unknown_stage"`, `priority` to `0`, `weight`
to `1.0`. -/
structure VStage where
  id : Option String
  template_id : Option String
  priority : Option Int
  weight : Option ℚ
  deriving DecidableEq

/-- What the outside world does for one stage of the sorted sequence:

* `tmplRaised` — `process_template` raised (caught at line 425);
* `tmplFailed` — `process_template` returned `(None, metadata)` (line 409),
  with the metadata error string;
* `execRaised` — `llm_executor` raised (caught at line 501, before any
  metrics were extracted);
* `parseRaised` — the executor returned (metrics extracted at line 450) and
  `_parse_json_from_llm_output` raised (caught at line 501);
* `parsedOk` — executor and parse both succeeded, with the parsed
  `passed`/`score`/`feedback` payload.  (`_parse_json_from_llm_output`
  raises rather than returning a falsy dict, so the
  `if not parsed_result` branch of lines 458–469 cannot fire and is not
  represented.) -/
inductive StageBehavior where
  | tmplRaised (e : PyErr)
  | tmplFailed (err : String)
  | execRaised (e : PyErr)
  | parseRaised (metrics : PyVal) (e : PyErr)
  | parsedOk (metrics : PyVal) (passed : Bool) (score : ℚ) (feedback : String)

/-- One entry of `validation_result["stageResults"]`.  Technical-error
entries (lines 413–418, 427–432, 504–509) carry no `score` or `metrics`
key; successful entries (lines 472–478) carry no `error` key. -/
structure StageEntry where
  stageId : String
  passed : Bool
  score : Option ℚ
  feedback : String
  error : Option String
  metrics : Option PyVal

/-- The `validation_result` dict built by `validate_with_sequence`
(lines 373–379); `error` is the key set only by the early-return error
dicts of lines 353 and 361. -/
structure ValidationResult where
  isValid : Bool
  finalScore : ℚ
  stageResults : List StageEntry
  aggregateFeedback : String
  error : Option String

/-- Initial `validation_result` (lines 373–379). -/
def vrInit : ValidationResult :=
  { isValid := true, finalScore := 0, stageResults := [],
    aggregateFeedback := "", error := none }

/-- A technical-error stage entry (lines 413–418 / 427–432 / 504–509). -/
def techEntry (sid msg : String) : StageEntry :=
  { stageId := sid, passed := false, score := none,
    feedback := "Technical error: " ++ msg, error := some msg, metrics := none }

/-- Append a technical error for stage `sid` to the running result:
entry, aggregate feedback line, and `isValid = False`. -/
def vrAddTech (vr : ValidationResult) (sid msg : String) : ValidationResult :=
  { vr with
    stageResults := vr.stageResults ++ [techEntry sid msg]
    aggregateFeedback :=
      vr.aggregateFeedback ++ "[" ++ sid ++ "] Technical error: " ++ msg ++ "\n"
    isValid := false }

/-- The `for stage in sorted_stages:` loop of `validate_with_sequence`
(lines 382–516).  `cfgAbort` is
`validation_sequence_config.get("abortOnFailure", True)`; `env i` is the
behaviour of the world at the `i`-th position of the sorted list.  Returns
the accumulated result together with the stages left unprocessed by a
`break`. -/
def runStages (cfgAbort : Bool) (env : ℕ → StageBehavior) :
    List VStage → ℕ → ValidationResult → ValidationResult × List VStage
  | [], _, vr => (vr, [])
  | stage :: rest, i, vr =>
    let sid := stage.id.getD "unknown_stage"
    match stage.template_id with
    | none =>
      -- lines 397–401: missing 'template_id' — log and `continue`,
      -- recording nothing
      runStages cfgAbort env rest (i + 1) vr
    | some tid =>
      match env i with
      | .tmplFailed err =>
        let msg := "Failed to process template '" ++ tid ++ "' for stage "
          ++ sid ++ ": " ++ err
        runStages cfgAbort env rest (i + 1) (vrAddTech vr sid msg)
      | .tmplRaised e =>
        runStages cfgAbort env rest (i + 1) (vrAddTech vr sid (pyErrStr e))
      | .execRaised e =>
        let vr := vrAddTech vr sid (pyErrStr e)
        if cfgAbort then (vr, rest) else runStages cfgAbort env rest (i + 1) vr
      | .parseRaised _ e =>
        let vr := vrAddTech vr sid (pyErrStr e)
        if cfgAbort then (vr, rest) else runStages cfgAbort env rest (i + 1) vr
      | .parsedOk m passed score feedback =>
        let entry : StageEntry :=
          { stageId := sid, passed := passed, score := some score,
            feedback := feedback, error := none, metrics := some m }
        let vr := { vr with stageResults := vr.stageResults ++ [entry] }
        let vr :=
          if feedback ≠ "" then
            { vr with aggregateFeedback :=
                vr.aggregateFeedback ++ "[" ++ sid ++ "] " ++ feedback ++ "\n" }
          else vr
        let w := stage.weight.getD 1
        if !passed then
          let vr := { vr with
            isValid := false
            finalScore := vr.finalScore + 0 }
          if cfgAbort then (vr, rest) else runStages cfgAbort env rest (i + 1) vr
        else
          runStages cfgAbort env rest (i + 1)
            { vr with finalScore := vr.finalScore + score * w }

/-- The validation-sequence configuration (loaded JSON), with `dict.get`
defaults as `Option`: `abortOnFailure` defaults to `True`,
`passing_threshold` to `0.6`. -/
structure VSeqConfig where
  stages : List VStage
  abortOnFailure : Option Bool
  passing_threshold : Option ℚ

/-- Stable descending sort by `priority` (line 370):
`sorted(stages, key=lambda s: s.get("priority", 0), reverse=True)`.
Python's sort is stable, and with `reverse=True` equal keys keep their
original relative order; any stable sort under the "greater or equal
priority" total preorder produces the same list, so a stable insertion
sort is used. -/
def sortStages (stages : List VStage) : List VStage :=
  stages.insertionSort (fun a b => (b.priority.getD 0) ≤ (a.priority.getD 0))

/-- Total weight of *all* sorted stages (line 520):
`sum(stage.get("weight", 1.0) for stage in sorted_stages)`. -/
def totalStageWeight (sorted : List VStage) : ℚ :=
  (sorted.map (fun s => s.weight.getD 1)).sum

/-- Lines 368–527 of `validate_with_sequence`: sort, run the stage loop,
normalize by the total weight of all sorted stages (only when positive),
then apply the passing threshold.  Returns the result value built by these
lines together with the stages left unprocessed by a `break`.  (The
enclosing function then executes line 530, which raises — see
`validate_with_sequence'`.) -/
def validateSeqCore (cfg : VSeqConfig) (env : ℕ → StageBehavior) :
    ValidationResult × List VStage :=
  let sorted := sortStages cfg.stages
  let r := runStages (cfg.abortOnFailure.getD true) env sorted 0 vrInit
  let vr := r.1
  let tw := totalStageWeight sorted
  let vr := if 0 < tw then { vr with finalScore := vr.finalScore / tw } else vr
  let thr := (cfg.passing_threshold).getD (6/10)
  let vr := if vr.finalScore < thr then { vr with isValid := false } else vr
  (vr, r.2)

/-- The early-return error dict of lines 350–353 / 358–361. -/
def vrLoadError (msg : String) : ValidationResult :=
  { isValid := false, finalScore := 0, stageResults := [],
    aggregateFeedback := msg, error := some msg }

/-- `validate_with_sequence` (evaluation_engine.py lines 327–532) in full:
sequence loading is abstracted as `loadSeq`
(`config_loader.load_validation_sequence`); after the loop and
normalization, line 530 evaluates
`self.metrics_collector.merge_metrics(...)`, a method the
`MetricsCollector` class does not define, so the call raises
`AttributeError` before the built result can be returned.  (The
`all_metrics` list fed to that call is irrelevant to the raise and is not
tracked.) -/
def validate_with_sequence' (loadSeq : Option VSeqConfig)
    (env : ℕ → StageBehavior) (mc : MetricsCollectorState) :
    Except PyErr ValidationResult :=
  match loadSeq with
  | none => .ok (vrLoadError "Could not load validation sequence")
  | some cfg =>
    if cfg.stages.isEmpty then
      .ok (vrLoadError "Validation sequence has no stages")
    else
      let r := validateSeqCore cfg env
      match mcMergeMetrics mc [] with
      | .error e => .error e
      | .ok _ => .ok r.1

/-- The score contribution of the stage at position `i` of the sorted list,
as accumulated by the loop: `score * weight` for a passing parsed stage,
`0` for a failing one, nothing for skipped or errored stages. -/
def stageContribution (env : ℕ → StageBehavior) (i : ℕ) (s : VStage) : ℚ :=
  match s.template_id with
  | none => 0
  | some _ =>
    match env i with
    | .parsedOk _ p sc _ => if p then sc * (s.weight.getD 1) else 0
    | _ => 0

/-- Total raw (pre-normalization) score of a list of stages starting at
position `i`. -/
def rawScoreAux (env : ℕ → StageBehavior) : List VStage → ℕ → ℚ
  | [], _ => 0
  | s :: rest, i => stageContribution env i s + rawScoreAux env rest (i + 1)

/-! ## Template Engine (`research/runner/template_engine.py`, `process_template`, lines 43–154)

Strings are handled as `List Char` (abbreviated `Str`) in this component so
that substitution and scanning can be reasoned about structurally.
Caller-supplied variable values are taken after the `str(...)` of line 124,
i.e. as strings. -/

/-- Character strings for the template engine. -/
abbrev Str := List Char

/-- A character of the `VAR_PATTERN` regex class `[a-zA-Z0-9_]`. -/
def isWordChar (c : Char) : Bool :=
  c.isAlpha || c.isDigit || c = '_'

/-- Scanner for `re.findall(r'\[([a-zA-Z0-9_]+)\]', pattern)` (line 30/86):
at each `[`, the greedy run of word characters followed by `]` yields a
match (scanning resumes after it, matches do not overlap); otherwise the
scan moves one character on.  Fuel is the string length (each step consumes
at least one character). -/
def findTokensAux : ℕ → Str → List Str
  | 0, _ => []
  | _, [] => []
  | fuel + 1, c :: cs =>
    if c = '[' then
      let name := cs.takeWhile isWordChar
      let rest := cs.dropWhile isWordChar
      match rest with
      | ']' :: rest' =>
        if name.isEmpty then findTokensAux fuel cs else name :: findTokensAux fuel rest'
      | _ => findTokensAux fuel cs
    else findTokensAux fuel cs

/-- All `[name]` placeholder names of a pattern, in occurrence order. -/
def findTokens (s : Str) : List Str :=
  findTokensAux s.length s

/-- First-occurrence deduplication, modelling the `set(...)` of line 85.
(Python set iteration order is unspecified; occurrence order is one
admissible order, and the theorems below do not depend on it.) -/
def dedupFirst : List Str → List Str
  | [] => []
  | x :: xs => x :: (dedupFirst xs).filter (fun y => y ≠ x)

/-- `str.replace(pat, rep)` on lists of characters: replace all
non-overlapping occurrences, scanning left to right.  Fuel is the string
length.  (The runner only calls this with the non-empty pattern
`"[" + name + "]"`.) -/
def replaceAllAux (pat rep : Str) : ℕ → Str → Str
  | 0, s => s
  | _, [] => []
  | fuel + 1, c :: cs =>
    if !pat.isEmpty && pat.isPrefixOf (c :: cs) then
      rep ++ replaceAllAux pat rep fuel (List.drop (pat.length - 1) cs)
    else
      c :: replaceAllAux pat rep fuel cs

/-- `s.replace(pat, rep)`. -/
def replaceAll (pat rep s : Str) : Str :=
  replaceAllAux pat rep s.length s

/-- The `[name]` token of a placeholder. -/
def tokenOf (name : Str) : Str :=
  '[' :: name ++ [']']

/-- A template-declared variable default (line 102): a string, or a dict
(replaced by the empty string at lines 104–105). -/
inductive TDefault where
  | dstr (v : Str)
  | ddict
  deriving DecidableEq

/-- Resolution order per placeholder (lines 96–112): caller-supplied value,
else template default (dict defaults become the empty string), else the
empty string. -/
def resolveVar (vars : List (Str × Str)) (tvars : List (Str × TDefault)) (n : Str) : Str :=
  match (vars.find? (fun kv => kv.1 = n)).map (·.2) with
  | some v => v
  | none =>
    match (tvars.find? (fun kv => kv.1 = n)).map (·.2) with
    | some (TDefault.dstr v) => v
    | some TDefault.ddict => []
    | none => []

/-- The names (among those found in the pattern) that resolve to the
empty-string fallback, recorded in `metadata["missing_variables"]`
(lines 109–116). -/
def missingVars (vars : List (Str × Str)) (tvars : List (Str × TDefault))
    (names : List Str) : List Str :=
  names.filter (fun n =>
    (vars.find? (fun kv => kv.1 = n)).isNone &&
    (tvars.find? (fun kv => kv.1 = n)).isNone)

/-- The substitution loop of lines 123–126: for each found name, replace
every occurrence of its `[name]` token by the resolved value. -/
def substituteVars (resolve : Str → Str) (names : List Str) (pattern : Str) : Str :=
  names.foldl (fun acc n => replaceAll (tokenOf n) (resolve n) acc) pattern

/-- The `answerSpace` fields read by `_format_constraints` (lines 156–202);
`other` is the nested `answerSpace.other` map, with values stringified. -/
structure AnswerSpace where
  minWords : Option Int
  maxWords : Option Int
  vocabulary : Option Str
  structure' : Option Str
  prohibitedContent : List Str
  other : List (Str × Str)

/-- A loaded template (the dict consumed by `process_template`); the keys
`id`, `pattern`, `type` are `Option` because line 73 checks their
presence. -/
structure Template where
  id : Option Str
  pattern : Option Str
  ttype : Option Str
  tvariables : List (Str × TDefault)
  constraints : List Str
  answerSpace : AnswerSpace

/-- Truthiness of an optional string field (`if constraint_data.get(k):`). -/
def truthyOptStr : Option Str → Bool
  | some v => !v.isEmpty
  | none => false

/-- Python `str.capitalize()`: first character uppercased, the rest
lowercased. -/
def pyCapitalize : Str → Str
  | [] => []
  | c :: cs => c.toUpper :: cs.map Char.toLower

/-- Decimal rendering of an integer, for the f-strings of lines 175/177. -/
def intStr (i : Int) : Str :=
  (toString i).data

/-- `", ".join(list)` / `"\n- ".join(lines)` on character lists. -/
def joinStr (sep : Str) : List Str → Str
  | [] => []
  | [x] => x
  | x :: y :: rest => x ++ sep ++ joinStr sep (y :: rest)

/-- `_format_constraints` (lines 156–202), applied to the constraint data
assembled at lines 135–141 (the explicit `constraints` list merged with the
`answerSpace` fields). -/
def formatConstraints (t : Template) (ttype : Str) : Str :=
  let lines := t.constraints
  let lines := lines ++
    (match t.answerSpace.minWords, t.answerSpace.maxWords with
     | some a, some b =>
       [("Content length must be between ".data ++ intStr a ++ " and ".data
          ++ intStr b ++ " words.".data)]
     | none, some b =>
       [("Content length must be maximum ".data ++ intStr b ++ " words.".data)]
     | _, _ => [])
  let lines := lines ++
    (if truthyOptStr t.answerSpace.vocabulary then
       [("Vocabulary must be suitable for: ".data
          ++ (t.answerSpace.vocabulary.getD []) ++ ".".data)]
     else [])
  let lines := lines ++
    (if truthyOptStr t.answerSpace.structure' then
       [("Use structure: ".data ++ (t.answerSpace.structure'.getD []) ++ ".".data)]
     else [])
  let lines := lines ++
    (if !t.answerSpace.prohibitedContent.isEmpty then
       [("Avoid prohibited content types/topics: ".data
          ++ joinStr ", ".data t.answerSpace.prohibitedContent ++ ".".data)]
     else [])
  let lines := lines ++
    t.answerSpace.other.map (fun kv =>
      pyCapitalize (kv.1.map (fun c => if c = '_' then ' ' else c))
        ++ ": ".data ++ kv.2)
  if lines.isEmpty then []
  else
    let pfx := if ttype = "validation".data then "VALIDATION CRITERIA:".data
               else "CONSTRAINTS:".data
    pfx ++ "\n- ".data ++ joinStr "\n- ".data lines

/-- `_apply_constraints` (lines 204–222): append the constraint block, if
non-empty, after the stripped prompt. -/
def applyConstraints (processed constraintText : Str) : Str :=
  if constraintText.isEmpty then processed
  else pyStripL processed ++ "\n\n".data ++ constraintText ++ "\n".data

/-- First `re.sub` of `_optimize_tokens` (line 229): collapse runs of
spaces/tabs to a single space. -/
def collapseSpacesAux : ℕ → Str → Str
  | 0, s => s
  | _, [] => []
  | fuel + 1, c :: cs =>
    if c = ' ' || c = '\t' then
      ' ' :: collapseSpacesAux fuel (cs.dropWhile (fun d => d = ' ' || d = '\t'))
    else c :: collapseSpacesAux fuel cs

/-- `re.sub(r'[ \t]+', ' ', s)`. -/
def collapseSpaces (s : Str) : Str :=
  collapseSpacesAux s.length s

/-- Index of the last `'\n'` in a list (meaningful when one is present). -/
def lastNewlineIdx (l : Str) : ℕ :=
  l.length - 1 - (l.reverse.findIdx (fun c => c = '\n'))

/-- Second `re.sub` of `_optimize_tokens` (line 230):
`re.sub(r'\n\s*\n', '\n\n', s)`.  At a `'\n'`, the greedy `\s*` backtracks
to the last `'\n'` of the following whitespace run; when the run contains
one, the whole span collapses to `"\n\n"` and scanning resumes after it. -/
def collapseBlankLinesAux : ℕ → Str → Str
  | 0, s => s
  | _, [] => []
  | fuel + 1, c :: cs =>
    if c = '\n' then
      let ws := cs.takeWhile pyIsSpace
      if ws.contains '\n' then
        '\n' :: '\n' :: collapseBlankLinesAux fuel (cs.drop (lastNewlineIdx ws + 1))
      else c :: collapseBlankLinesAux fuel cs
    else c :: collapseBlankLinesAux fuel cs

/-- `re.sub(r'\n\s*\n', '\n\n', s)`. -/
def collapseBlankLines (s : Str) : Str :=
  collapseBlankLinesAux s.length s

/-- `_optimize_tokens` (lines 224–232): collapse space runs, collapse blank
lines, strip. -/
def optimizeTokens (s : Str) : Str :=
  pyStripL (collapseBlankLines (collapseSpaces s))

/-- The processing metadata, restricted to the fields the theorems
observe. -/
structure TMeta where
  error : Option Str
  processingSuccess : Bool
  missingVariables : List Str

/-- `process_template` (template_engine.py lines 43–154). `loadTemplate`
abstracts `config_loader.load_template`; `vars` holds the caller-supplied
values after stringification.  The substitution `try` of lines 122–131
cannot raise in this model (string replacement is total), so its `except`
branch has no representation. -/
def process_template (loadTemplate : Str → Option Template)
    (templateName : Str) (vars : List (Str × Str)) : Option Str × TMeta :=
  match loadTemplate templateName with
  | none =>
    (none, { error := some ("Template not loaded.".data),
             processingSuccess := false, missingVariables := [] })
  | some t =>
    match t.id, t.pattern, t.ttype with
    | some _, some pattern, some ttype =>
      let foundVars := dedupFirst (findTokens pattern)
      let resolve := resolveVar vars t.tvariables
      let substituted := substituteVars resolve foundVars pattern
      let constraintText := formatConstraints t ttype
      let withConstraints := applyConstraints substituted constraintText
      let finalPrompt := optimizeTokens withConstraints
      (some finalPrompt,
       { error := none, processingSuccess := true,
         missingVariables := missingVars vars t.tvariables foundVars })
    | _, _, _ =>
      (none, { error := some ("Template missing required keys (id, pattern, type).".data),
               processingSuccess := false, missingVariables := [] })

/-! ### Well-formed patterns

For the substitution-completeness property, a pattern is *well formed* when
it is an alternation of literal text without `'['` and `[name]`
placeholders with non-empty word-character names.  (The counterexample
below shows the property fails for general patterns/values: a substituted
value can reintroduce a placeholder token.) -/

/-- A pattern segment: literal text or a placeholder. -/
inductive Seg where
  | lit (s : Str)
  | ph (name : Str)

/-- Concatenate segments back into the pattern string. -/
def flattenSegs : List Seg → Str
  | [] => []
  | .lit s :: rest => s ++ flattenSegs rest
  | .ph n :: rest => tokenOf n ++ flattenSegs rest

/-- The placeholder names of a segment list, in order. -/
def phNames : List Seg → List Str
  | [] => []
  | .lit _ :: rest => phNames rest
  | .ph n :: rest => n :: phNames rest

/-- Well-formedness of one segment: literal text contains no `'['`, and a
placeholder name is a non-empty run of word characters. -/
def segOK : Seg → Bool
  | .lit s => s.all (fun c => c ≠ '[')
  | .ph n => !n.isEmpty && n.all isWordChar

/-- Substituting value `v` for every `[n]` placeholder at the segment
level. -/
def substSegs (n : Str) (v : Str) : List Seg → List Seg
  | [] => []
  | .lit s :: rest => .lit s :: substSegs n v rest
  | .ph m :: rest =>
    (if m = n then Seg.lit v else Seg.ph m) :: substSegs n v rest

/-! ## Concrete witness fixtures -/

/-- Witness fixture for the repair protocol: extraction succeeds only on
the marker text `"FIXED"`. -/
def extractC7 : String → Option PyVal × String := fun s =>
  if s = "FIXED" then
    (some (.pdict [("passed", .pbool true), ("score", .pfloat 1),
                   ("feedback", .pstr "f")]), "direct_parse")
  else (none, "extraction_failed")

/-- Witness fixture: the repair model always answers the marker text. -/
def repairFnC7 : String → String := fun _ => "FIXED"

/-- An `answerSpace` with nothing set (no constraint lines). -/
def emptyAnswerSpace : AnswerSpace :=
  { minWords := none, maxWords := none, vocabulary := none,
    structure' := none, prohibitedContent := [], other := [] }

/-- Counterexample template for substitution completeness: one placeholder,
no constraints. -/
def tmplC8 : Template :=
  { id := some "t".data, pattern := some "Say [a] now.".data,
    ttype := some "generation".data, tvariables := [], constraints := [],
    answerSpace := emptyAnswerSpace }

/-- Witness template for the amended substitution-completeness theorem. -/
def tmplW8 : Template :=
  { id := some "w".data, pattern := some "Hello [name]!".data,
    ttype := some "generation".data, tvariables := [], constraints := [],
    answerSpace := emptyAnswerSpace }

/-- The segment decomposition of `tmplW8`'s pattern. -/
def segsW8 : List Seg :=
  [.lit "Hello ".data, .ph "name".data, .lit "!".data]

/-- A concrete 3-stage validation sequence for witnesses: priorities 9, 5, 1
(already descending), sequence-level `abortOnFailure = True`. -/
def cfgC5 : VSeqConfig :=
  { stages :=
      [{ id := some "w1", template_id := some "ta", priority := some 9, weight := none },
       { id := some "w2", template_id := some "tb", priority := some 5, weight := none },
       { id := some "w3", template_id := some "tc", priority := some 1, weight := none }],
    abortOnFailure := some true, passing_threshold := none }

/-- A concrete environment: the first executed stage passes, every later
one fails. -/
def envC5 : ℕ → StageBehavior := fun i =>
  if i = 0 then .parsedOk (.pdict []) true (9/10) "good"
  else .parsedOk (.pdict []) false (1/10) "bad"

/-- A concrete one-stage validation sequence for witnesses. -/
def cfgC6 : VSeqConfig :=
  { stages :=
      [{ id := some "z", template_id := some "t", priority := none, weight := none }],
    abortOnFailure := none, passing_threshold := none }

/-- A concrete environment in which every stage passes with score 1. -/
def envC6 : ℕ → StageBehavior := fun _ => .parsedOk (.pdict []) true 1 "fb"

/-! ## Theorems -/

/-- C10: for every input that is `None`, not a string, or consists only of
whitespace, `extract_json_from_text` returns `(None, "empty_input")` — a
method tag distinct from `"extraction_failed"` — for every behaviour of
the parsing cascade. -/
theorem extract_json_empty_input_tag (rest : String → Option PyVal × String)
    (t : TextInput)
    (h : t = TextInput.noneInput ∨ (∃ b, t = TextInput.otherInput b) ∨
         ∃ s, t = TextInput.strInput s ∧ pyStrip s = "") :
    extract_json_from_text rest t = (none, "empty_input") ∧
      "empty_input" ≠ "extraction_failed" := by
  refine ⟨?_, by decide⟩
  rcases h with h | ⟨b, h⟩ | ⟨s, h, hs⟩
  · subst h; simp [extract_json_from_text, textFalsy, textIsStr]
  · subst h; simp [extract_json_from_text, textFalsy, textIsStr]
  · subst h; simp [extract_json_from_text, textFalsy, textIsStr, hs]

/-- Witness for C10 at the whitespace-only input `"  \t\n "`. -/
theorem extract_json_empty_input_tag_witness :
    pyStrip "  \t\n " = "" ∧
      (extract_json_from_text (fun s => (none, s)) (TextInput.strInput "  \t\n ") =
          (none, "empty_input") ∧
        "empty_input" ≠ "extraction_failed") :=
  ⟨by decide,
   extract_json_empty_input_tag _ _ (Or.inr (Or.inr ⟨"  \t\n ", rfl, by decide⟩))⟩

/-- C1 (code bug): `_execute_model_call` never returns a result dict — for
every prompt, provider-call behaviour and collector state it raises
`AttributeError`, because `metrics_collector.start_timer` does not exist
and the `except` handler itself calls the equally nonexistent
`stop_timer`/`get_results`.  The exception propagates past the Model
Execution Abstraction boundary, contrary to the never-raises contract. -/
theorem execute_model_call_always_raises (prompt : String)
    (apiCall : Except PyErr (String × ℕ × ℕ)) (mc : MetricsCollectorState) :
    ∃ msg, executeModelCall prompt apiCall mc = .error (.attributeError msg) := by
  by_cases h : (mc.start_time).isSome
  · refine ⟨"'MetricsCollector' object has no attribute 'stop_timer'", ?_⟩
    simp only [executeModelCall, mcStartTimer, mcStopTimer, mcGetResults, h, if_true]
    rfl
  · refine ⟨"'MetricsCollector' object has no attribute 'get_results'", ?_⟩
    simp only [executeModelCall, mcStartTimer, mcStopTimer, mcGetResults,
      Bool.not_eq_true] at h ⊢
    simp only [h, if_false]
    rfl

/-- C2 (code bug): whatever the step helpers do (including raising),
`_run_cloud_baseline` itself raises `AttributeError` at the final
`merge_metrics` line, so the test-case body's outer `except` fires and the
logged record keeps `run_1 = pending` (never `failed`), the sibling runs
2–4 are never invoked (their slots stay `pending`), and only the top-level
`error` field is set. -/
theorem run_exception_leaves_record_pending (stepQ : Except PyErr PyVal)
    (stepSA : PyVal → Except PyErr PyVal)
    (stepBE : PyVal → PyVal → Except PyErr PyVal)
    (stepCE : PyVal → Except PyErr PyVal) (mc : MetricsCollectorState)
    (r2 r3 r4 : Unit → Except PyErr Run1State) :
    run_cloud_baseline stepQ stepSA stepBE stepCE mc =
      .error (.attributeError "'MetricsCollector' object has no attribute 'merge_metrics'") ∧
    runTestCaseBody (fun _ => run_cloud_baseline stepQ stepSA stepBE stepCE mc) r2 r3 r4 =
      { run_1 := .pending, run_2 := .pending, run_3 := .pending, run_4 := .pending,
        error := some ("Run Execution Failed: " ++
          "'MetricsCollector' object has no attribute 'merge_metrics'") } :=
  ⟨rfl, rfl⟩

/-- C3 (code bug): on the spec's own clean-JSON scenario
`{"passed": true, "score": 8, "feedback": "ok"}`, the numeric score `8` is
returned unchanged (the normalization of lines 163–167 is nested inside
the non-numeric conversion branch and never sees it), even though the
normalization itself would map `8` to `0.8`, and `8` is outside `[0, 1]`. -/
theorem numeric_score_not_normalized (pyStr : PyVal → String) :
    validate_and_fix_json_structure pyStr
        (.pdict [("passed", .pbool true), ("score", .pint 8), ("feedback", .pstr "ok")])
        stdRequiredKeys stdDefaults =
      .ok (.pdict [("passed", .pbool true), ("score", .pint 8), ("feedback", .pstr "ok")]) ∧
    normalizeScore 8 = 4/5 ∧ ¬ ((8 : ℤ) ≤ 1) := by
  refine ⟨rfl, by norm_num [normalizeScore], by decide⟩

/-- C9 (code bug): with a JSON-expecting prompt, `MockModel.generate`
builds its payload from fresh draws of the unseeded global `random`
generator, so two calls with identical `model_id`, `model_type`, prompt
and parameters — differing only in the hidden generator state — return
different generated text. -/
theorem mock_generate_json_mode_not_deterministic :
    (mockGenerate "mock-edge" "edge_llm" "Evaluate the answer and return JSON."
        { jsonOutput := false, responseFormatType := none }
        { cloudScore := 7, edgePassed := true, edgeScore := 3/4, edgeWordCount := 80 }).generatedText ≠
    (mockGenerate "mock-edge" "edge_llm" "Evaluate the answer and return JSON."
        { jsonOutput := false, responseFormatType := none }
        { cloudScore := 7, edgePassed := false, edgeScore := 7/8, edgeWordCount := 80 }).generatedText := by
  decide

/-! ### Validation-loop invariants -/

theorem vrAddTech_stageResults (vr : ValidationResult) (s m : String) :
    (vrAddTech vr s m).stageResults = vr.stageResults ++ [techEntry s m] := rfl

theorem vrAddTech_finalScore (vr : ValidationResult) (s m : String) :
    (vrAddTech vr s m).finalScore = vr.finalScore := rfl

theorem techEntry_stageId (s m : String) : (techEntry s m).stageId = s := rfl

/-- Invariant of the `for stage in sorted_stages` loop: the input list
splits into the processed prefix `done` and the suffix `rest` skipped by a
`break`; the stage-id list of the produced entries extends the input's by
exactly one id per processed stage that has a `template_id`; and the final
score grows by exactly the contributions of the processed stages. -/
theorem runStages_spec (cfgAbort : Bool) (env : ℕ → StageBehavior)
    (ss : List VStage) : ∀ (i : ℕ) (vr : ValidationResult),
    ∃ done,
      ss = done ++ (runStages cfgAbort env ss i vr).2 ∧
      (runStages cfgAbort env ss i vr).1.stageResults.map (fun e => e.stageId) =
        vr.stageResults.map (fun e => e.stageId) ++
          (done.filter (fun s => s.template_id.isSome)).map
            (fun s => s.id.getD "unknown_stage") ∧
      (runStages cfgAbort env ss i vr).1.finalScore =
        vr.finalScore + rawScoreAux env done i := by
  induction ss with
  | nil =>
    intro i vr
    exact ⟨[], by simp [runStages, rawScoreAux]⟩
  | cons s rest ih =>
    intro i vr
    match hs : s.template_id with
    | none =>
      obtain ⟨done', h1, h2, h3⟩ := ih (i + 1) vr
      refine ⟨s :: done', ?_, ?_, ?_⟩
      · simpa [runStages, hs] using h1
      · simpa [runStages, hs] using h2
      · simp only [runStages, hs]
        rw [h3]
        simp [rawScoreAux, stageContribution, hs]
    | some tid =>
      match he : env i with
      | .tmplFailed err =>
        obtain ⟨done', h1, h2, h3⟩ := ih (i + 1)
          (vrAddTech vr (s.id.getD "unknown_stage")
            ("Failed to process template '" ++ tid ++ "' for stage "
              ++ (s.id.getD "unknown_stage") ++ ": " ++ err))
        refine ⟨s :: done', ?_, ?_, ?_⟩
        · simpa [runStages, hs, he] using h1
        · simp only [runStages, hs, he]
          rw [h2, vrAddTech_stageResults]
          simp [hs, techEntry_stageId]
        · simp only [runStages, hs, he]
          rw [h3, vrAddTech_finalScore]
          simp [rawScoreAux, stageContribution, hs, he]
      | .tmplRaised e =>
        obtain ⟨done', h1, h2, h3⟩ := ih (i + 1)
          (vrAddTech vr (s.id.getD "unknown_stage") (pyErrStr e))
        refine ⟨s :: done', ?_, ?_, ?_⟩
        · simpa [runStages, hs, he] using h1
        · simp only [runStages, hs, he]
          rw [h2, vrAddTech_stageResults]
          simp [hs, techEntry_stageId]
        · simp only [runStages, hs, he]
          rw [h3, vrAddTech_finalScore]
          simp [rawScoreAux, stageContribution, hs, he]
      | .execRaised e =>
        by_cases hab : cfgAbort = true
        · refine ⟨[s], ?_, ?_, ?_⟩
          · simp [runStages, hs, he, hab]
          · simp [runStages, hs, he, hab, vrAddTech_stageResults, techEntry_stageId]
          · simp [runStages, hs, he, hab, vrAddTech_finalScore,
              rawScoreAux, stageContribution]
        · obtain ⟨done', h1, h2, h3⟩ := ih (i + 1)
            (vrAddTech vr (s.id.getD "unknown_stage") (pyErrStr e))
          refine ⟨s :: done', ?_, ?_, ?_⟩
          · simpa [runStages, hs, he, hab] using h1
          · simp only [runStages, hs, he]
            rw [if_neg hab, h2, vrAddTech_stageResults]
            simp [hs, techEntry_stageId]
          · simp only [runStages, hs, he]
            rw [if_neg hab, h3, vrAddTech_finalScore]
            simp [rawScoreAux, stageContribution, hs, he]
      | .parseRaised m e =>
        by_cases hab : cfgAbort = true
        · refine ⟨[s], ?_, ?_, ?_⟩
          · simp [runStages, hs, he, hab]
          · simp [runStages, hs, he, hab, vrAddTech_stageResults, techEntry_stageId]
          · simp [runStages, hs, he, hab, vrAddTech_finalScore,
              rawScoreAux, stageContribution]
        · obtain ⟨done', h1, h2, h3⟩ := ih (i + 1)
            (vrAddTech vr (s.id.getD "unknown_stage") (pyErrStr e))
          refine ⟨s :: done', ?_, ?_, ?_⟩
          · simpa [runStages, hs, he, hab] using h1
          · simp only [runStages, hs, he]
            rw [if_neg hab, h2, vrAddTech_stageResults]
            simp [hs, techEntry_stageId]
          · simp only [runStages, hs, he]
            rw [if_neg hab, h3, vrAddTech_finalScore]
            simp [rawScoreAux, stageContribution, hs, he]
      | .parsedOk m p sc fb =>
        cases p with
        | true =>
          by_cases hfb : fb = ""
          · have hred : runStages cfgAbort env (s :: rest) i vr =
                runStages cfgAbort env rest (i + 1)
                  { vr with
                    stageResults := vr.stageResults ++
                      [{ stageId := s.id.getD "unknown_stage", passed := true,
                         score := some sc, feedback := fb, error := none,
                         metrics := some m }]
                    finalScore := vr.finalScore + sc * (s.weight.getD 1) } := by
              simp [runStages, hs, he, hfb]
            rw [hred]
            obtain ⟨done', h1, h2, h3⟩ := ih (i + 1) _
            refine ⟨s :: done', ?_, ?_, ?_⟩
            · rw [List.cons_append, ← h1]
            · rw [h2]; simp [hs]
            · rw [h3]; simp [rawScoreAux, stageContribution, hs, he, add_assoc]
          · have hred : runStages cfgAbort env (s :: rest) i vr =
                runStages cfgAbort env rest (i + 1)
                  { vr with
                    stageResults := vr.stageResults ++
                      [{ stageId := s.id.getD "unknown_stage", passed := true,
                         score := some sc, feedback := fb, error := none,
                         metrics := some m }]
                    aggregateFeedback := vr.aggregateFeedback ++ "["
                      ++ (s.id.getD "unknown_stage") ++ "] " ++ fb ++ "\n"
                    finalScore := vr.finalScore + sc * (s.weight.getD 1) } := by
              simp [runStages, hs, he, hfb]
            rw [hred]
            obtain ⟨done', h1, h2, h3⟩ := ih (i + 1) _
            refine ⟨s :: done', ?_, ?_, ?_⟩
            · rw [List.cons_append, ← h1]
            · rw [h2]; simp [hs]
            · rw [h3]; simp [rawScoreAux, stageContribution, hs, he, add_assoc]
        | false =>
          by_cases hab : cfgAbort = true
          · by_cases hfb : fb = ""
            · have hred : runStages cfgAbort env (s :: rest) i vr =
                  ({ vr with
                     stageResults := vr.stageResults ++
                       [{ stageId := s.id.getD "unknown_stage", passed := false,
                          score := some sc, feedback := fb, error := none,
                          metrics := some m }]
                     isValid := false
                     finalScore := vr.finalScore + 0 }, rest) := by
                simp [runStages, hs, he, hab, hfb]
              rw [hred]
              refine ⟨[s], by simp, ?_, ?_⟩
              · simp [hs]
              · simp [rawScoreAux, stageContribution, hs, he]
            · have hred : runStages cfgAbort env (s :: rest) i vr =
                  ({ vr with
                     stageResults := vr.stageResults ++
                       [{ stageId := s.id.getD "unknown_stage", passed := false,
                          score := some sc, feedback := fb, error := none,
                          metrics := some m }]
                     aggregateFeedback := vr.aggregateFeedback ++ "["
                       ++ (s.id.getD "unknown_stage") ++ "] " ++ fb ++ "\n"
                     isValid := false
                     finalScore := vr.finalScore + 0 }, rest) := by
                simp [runStages, hs, he, hab, hfb]
              rw [hred]
              refine ⟨[s], by simp, ?_, ?_⟩
              · simp [hs]
              · simp [rawScoreAux, stageContribution, hs, he]
          · by_cases hfb : fb = ""
            · have hred : runStages cfgAbort env (s :: rest) i vr =
                  runStages cfgAbort env rest (i + 1)
                    { vr with
                      stageResults := vr.stageResults ++
                        [{ stageId := s.id.getD "unknown_stage", passed := false,
                           score := some sc, feedback := fb, error := none,
                           metrics := some m }]
                      isValid := false
                      finalScore := vr.finalScore + 0 } := by
                simp [runStages, hs, he, hab, hfb]
              rw [hred]
              obtain ⟨done', h1, h2, h3⟩ := ih (i + 1) _
              refine ⟨s :: done', ?_, ?_, ?_⟩
              · rw [List.cons_append, ← h1]
              · rw [h2]; simp [hs]
              · rw [h3]; simp [rawScoreAux, stageContribution, hs, he]
            · have hred : runStages cfgAbort env (s :: rest) i vr =
                  runStages cfgAbort env rest (i + 1)
                    { vr with
                      stageResults := vr.stageResults ++
                        [{ stageId := s.id.getD "unknown_stage", passed := false,
                           score := some sc, feedback := fb, error := none,
                           metrics := some m }]
                      aggregateFeedback := vr.aggregateFeedback ++ "["
                        ++ (s.id.getD "unknown_stage") ++ "] " ++ fb ++ "\n"
                      isValid := false
                      finalScore := vr.finalScore + 0 } := by
                simp [runStages, hs, he, hab, hfb]
              rw [hred]
              obtain ⟨done', h1, h2, h3⟩ := ih (i + 1) _
              refine ⟨s :: done', ?_, ?_, ?_⟩
              · rw [List.cons_append, ← h1]
              · rw [h2]; simp [hs]
              · rw [h3]; simp [rawScoreAux, stageContribution, hs, he]

/-- Transfer of the loop invariant through the normalization and threshold
steps of `validateSeqCore` (which modify only `finalScore` and
`isValid`). -/
theorem validateSeqCore_spec (cfg : VSeqConfig) (env : ℕ → StageBehavior) :
    ∃ done,
      sortStages cfg.stages = done ++ (validateSeqCore cfg env).2 ∧
      (validateSeqCore cfg env).1.stageResults.map (fun e => e.stageId) =
        (done.filter (fun s => s.template_id.isSome)).map
          (fun s => s.id.getD "unknown_stage") ∧
      (validateSeqCore cfg env).1.finalScore =
        (if 0 < totalStageWeight (sortStages cfg.stages)
         then rawScoreAux env done 0 / totalStageWeight (sortStages cfg.stages)
         else rawScoreAux env done 0) := by
  obtain ⟨done, h1, h2, h3⟩ :=
    runStages_spec (cfg.abortOnFailure.getD true) env (sortStages cfg.stages) 0 vrInit
  refine ⟨done, ?_, ?_, ?_⟩
  · exact h1
  · simp only [validateSeqCore, apply_ite ValidationResult.stageResults, ite_self]
    rw [h2]; simp [vrInit]
  · simp only [validateSeqCore, apply_ite ValidationResult.finalScore, ite_self]
    rw [h3]; simp [vrInit]

/-- C4 (amended): in every execution of `validate_with_sequence`'s stage
loop, the (priority-sorted) stage list splits into a processed prefix and
the suffix cut off by an abort, and the recorded `stageResults` entries
are exactly one entry, in order, for each processed stage that has a
`template_id` — a processed stage lacking `template_id` is skipped with no
recorded entry. -/
theorem stage_results_cover_processed_stages (cfg : VSeqConfig)
    (env : ℕ → StageBehavior) :
    ∃ done,
      sortStages cfg.stages = done ++ (validateSeqCore cfg env).2 ∧
      (validateSeqCore cfg env).1.stageResults.map (fun e => e.stageId) =
        (done.filter (fun s => s.template_id.isSome)).map
          (fun s => s.id.getD "unknown_stage") := by
  obtain ⟨done, h1, h2, h3⟩ := validateSeqCore_spec cfg env
  exact ⟨done, h1, h2⟩

/-- C4 counterexample: a two-stage sequence whose higher-priority stage has
no `template_id`.  No abort occurs (the unprocessed suffix is empty) and
the skipped stage `"s1"` has no `stageResults` entry, so the original
claim — every stage contributes an entry unless cut off by an abort — is
false. -/
theorem missing_template_id_stage_recorded_nowhere :
    (validateSeqCore
        { stages :=
            [{ id := some "s1", template_id := none, priority := some 5, weight := none },
             { id := some "s2", template_id := some "t", priority := some 1, weight := none }],
          abortOnFailure := none, passing_threshold := none }
        (fun _ => .parsedOk (.pdict []) true 1 "fb")).2 = [] ∧
    (validateSeqCore
        { stages :=
            [{ id := some "s1", template_id := none, priority := some 5, weight := none },
             { id := some "s2", template_id := some "t", priority := some 1, weight := none }],
          abortOnFailure := none, passing_threshold := none }
        (fun _ => .parsedOk (.pdict []) true 1 "fb")).1.stageResults.map
      (fun e => e.stageId) = ["s2"] ∧
    ¬ "s1" ∈ (validateSeqCore
        { stages :=
            [{ id := some "s1", template_id := none, priority := some 5, weight := none },
             { id := some "s2", template_id := some "t", priority := some 1, weight := none }],
          abortOnFailure := none, passing_threshold := none }
        (fun _ => .parsedOk (.pdict []) true 1 "fb")).1.stageResults.map
      (fun e => e.stageId) := by
  refine ⟨by decide, ?_, ?_⟩ <;>
    simp only [validateSeqCore, apply_ite ValidationResult.stageResults, ite_self] <;>
    decide

/-- C6 (code bug): `validate_with_sequence` never returns a `finalScore` —
for every loaded sequence with at least one stage, every stage behaviour
and every collector state, it raises `AttributeError` at the line-530
`merge_metrics` call before the built result can be returned.  The
`finalScore` computed internally (and then discarded by the raise) is the
sum of `score × weight` over the passing executed stages divided — only
when positive — by the sum of the weights of *all* stages of the sorted
sequence (executed or not), not the weights of the stages actually
considered as the claim states. -/
theorem final_score_never_returned (cfg : VSeqConfig)
    (env : ℕ → StageBehavior) (mc : MetricsCollectorState)
    (hne : cfg.stages.isEmpty = false) :
    validate_with_sequence' (some cfg) env mc =
      .error (.attributeError
        "'MetricsCollector' object has no attribute 'merge_metrics'") ∧
    ∃ done,
      sortStages cfg.stages = done ++ (validateSeqCore cfg env).2 ∧
      (validateSeqCore cfg env).1.finalScore =
        (if 0 < totalStageWeight (sortStages cfg.stages)
         then rawScoreAux env done 0 / totalStageWeight (sortStages cfg.stages)
         else rawScoreAux env done 0) := by
  constructor
  · simp [validate_with_sequence', hne, mcMergeMetrics]
  · obtain ⟨done, h1, h2, h3⟩ := validateSeqCore_spec cfg env
    exact ⟨done, h1, h3⟩

/-- Witness for C6 at a concrete one-stage sequence. -/
theorem final_score_never_returned_witness :
    validate_with_sequence' (some cfgC6) envC6 { start_time := none } =
      .error (.attributeError
        "'MetricsCollector' object has no attribute 'merge_metrics'") ∧
    ∃ done,
      sortStages cfgC6.stages = done ++ (validateSeqCore cfgC6 envC6).2 ∧
      (validateSeqCore cfgC6 envC6).1.finalScore =
        (if 0 < totalStageWeight (sortStages cfgC6.stages)
         then rawScoreAux envC6 done 0 / totalStageWeight (sortStages cfgC6.stages)
         else rawScoreAux envC6 done 0) :=
  final_score_never_returned cfgC6 envC6 { start_time := none } rfl

/-- C6 counterexample: three unit-weight stages; the first passes with
score 1, the second fails and aborts, the third is never executed.  The
code divides by the total weight 3 of all stages, giving `1/3`; the
claimed divisor — the weight 2 of the stages actually executed — would
give `1/2`. -/
theorem final_score_divides_by_unexecuted_weights :
    (validateSeqCore
        { stages :=
            [{ id := some "u1", template_id := some "t1", priority := some 3, weight := none },
             { id := some "u2", template_id := some "t2", priority := some 2, weight := none },
             { id := some "u3", template_id := some "t3", priority := some 1, weight := none }],
          abortOnFailure := none, passing_threshold := none }
        (fun i => if i = 0 then .parsedOk (.pdict []) true 1 ""
                  else .parsedOk (.pdict []) false 0 "")).1.finalScore = 1/3 ∧
    (validateSeqCore
        { stages :=
            [{ id := some "u1", template_id := some "t1", priority := some 3, weight := none },
             { id := some "u2", template_id := some "t2", priority := some 2, weight := none },
             { id := some "u3", template_id := some "t3", priority := some 1, weight := none }],
          abortOnFailure := none, passing_threshold := none }
        (fun i => if i = 0 then .parsedOk (.pdict []) true 1 ""
                  else .parsedOk (.pdict []) false 0 "")).2 =
      [{ id := some "u3", template_id := some "t3", priority := some 1, weight := none }] ∧
    ((1 : ℚ) * 1) / ((1 : ℚ) + 1) = 1/2 ∧ (1 : ℚ)/3 ≠ 1/2 := by
  refine ⟨?_, ?_, by norm_num, by norm_num⟩
  · norm_num [validateSeqCore, runStages, sortStages, List.insertionSort,
      List.orderedInsert, totalStageWeight, vrInit,
      apply_ite ValidationResult.finalScore, ite_self]
  · norm_num [validateSeqCore, runStages, sortStages, List.insertionSort,
      List.orderedInsert, totalStageWeight, vrInit]

/-- C5 (code bug): in a 3-stage sorted sequence where the first executed
stage passes and the second reports `passed = false` with sequence-level
`abortOnFailure` true, `validate_with_sequence` returns no
`ValidationResult` at all — it raises `AttributeError` at the line-530
`merge_metrics` call for every collector state.  The result it builds
internally (and then discards by raising) does have exactly 2
`stageResults` entries, `isValid = false`, and the third stage left
unexecuted, but no caller ever observes it. -/
theorem abort_scenario_raises_instead_of_returning (cfg : VSeqConfig)
    (env : ℕ → StageBehavior) (mc : MetricsCollectorState)
    (s1 s2 s3 : VStage) (t1 t2 : String) (m1 m2 : PyVal)
    (sc1 sc2 : ℚ) (fb1 fb2 : String)
    (hsort : sortStages cfg.stages = [s1, s2, s3])
    (h1 : s1.template_id = some t1) (h2 : s2.template_id = some t2)
    (e0 : env 0 = .parsedOk m1 true sc1 fb1)
    (e1 : env 1 = .parsedOk m2 false sc2 fb2)
    (habort : cfg.abortOnFailure.getD true = true) :
    validate_with_sequence' (some cfg) env mc =
      .error (.attributeError
        "'MetricsCollector' object has no attribute 'merge_metrics'") ∧
    (validateSeqCore cfg env).1.stageResults.length = 2 ∧
    (validateSeqCore cfg env).1.isValid = false ∧
    (validateSeqCore cfg env).2 = [s3] := by
  have hne : cfg.stages.isEmpty = false := by
    cases hs : cfg.stages with
    | nil => rw [hs] at hsort; simp [sortStages, List.insertionSort] at hsort
    | cons a l => simp [hs]
  constructor
  · simp [validate_with_sequence', hne, mcMergeMetrics]
  refine ⟨?_, ?_, ?_⟩ <;>
    simp only [validateSeqCore, hsort, habort] <;>
    by_cases hfb1 : fb1 = "" <;> by_cases hfb2 : fb2 = "" <;>
    simp [runStages, h1, h2, e0, e1, hfb1, hfb2, vrInit,
      apply_ite ValidationResult.stageResults, apply_ite ValidationResult.isValid,
      ite_self]

/-- Witness for C5 at the concrete fixture sequence. -/
theorem abort_scenario_raises_instead_of_returning_witness :
    validate_with_sequence' (some cfgC5) envC5 { start_time := none } =
      .error (.attributeError
        "'MetricsCollector' object has no attribute 'merge_metrics'") ∧
    (validateSeqCore cfgC5 envC5).1.stageResults.length = 2 ∧
    (validateSeqCore cfgC5 envC5).1.isValid = false ∧
    (validateSeqCore cfgC5 envC5).2 =
      [{ id := some "w3", template_id := some "tc", priority := some 1, weight := none }] :=
  abort_scenario_raises_instead_of_returning cfgC5 envC5 { start_time := none }
    { id := some "w1", template_id := some "ta", priority := some 9, weight := none }
    { id := some "w2", template_id := some "tb", priority := some 5, weight := none }
    { id := some "w3", template_id := some "tc", priority := some 1, weight := none }
    "ta" "tb" (.pdict []) (.pdict []) (9/10) (1/10) "good" "bad"
    (by decide) rfl rfl rfl rfl rfl

/-! ### Repair-protocol bounds -/

/-- Loop invariant for the repair loop: it makes at most `fuel` repair
calls, and its result is either the pure defaults object or the
validated/fixed version of a successfully extracted object. -/
theorem repairLoopAux_spec (pyStr : PyVal → String)
    (extract : String → Option PyVal × String) (repairFn : String → String)
    (rk : List String) (dv : List (String × PyVal)) :
    ∀ (fuel : ℕ) (cur : String),
      (repairLoopAux pyStr extract repairFn rk dv fuel cur).2 ≤ fuel ∧
      ((repairLoopAux pyStr extract repairFn rk dv fuel cur).1 =
          .ok (.pdict (defaultsObject rk dv)) ∨
       ∃ t' pj, (extract t').1 = some pj ∧
         (repairLoopAux pyStr extract repairFn rk dv fuel cur).1 =
           validate_and_fix_json_structure pyStr pj rk dv) := by
  intro fuel
  induction fuel with
  | zero => intro cur; simp [repairLoopAux]
  | succ n ih =>
    intro cur
    by_cases hid : repairFn (mkRepairPrompt rk cur) = cur
    · simp [repairLoopAux, hid]
    · cases hx : (extract (repairFn (mkRepairPrompt rk cur))).1 with
      | some pj =>
        refine ⟨?_, Or.inr ⟨repairFn (mkRepairPrompt rk cur), pj, hx, ?_⟩⟩ <;>
          simp [repairLoopAux, hid, hx]
      | none =>
        obtain ⟨h1, h2⟩ := ih (repairFn (mkRepairPrompt rk cur))
        constructor
        · simp only [repairLoopAux, if_neg hid, hx]
          omega
        · simpa only [repairLoopAux, if_neg hid, hx] using h2

/-- C7: whenever extraction fails on the input text, the repair protocol
makes at most `maxAttempts` repair calls; it stops immediately (returning
the defaults object after one call) when the first repair call returns the
input text unchanged; and its result is either exactly the
defaults-for-required-keys object, or the validated/fixed version of some
successfully extracted repaired text. -/
theorem repair_attempts_bounded (pyStr : PyVal → String)
    (extract : String → Option PyVal × String) (repairFn : String → String)
    (rk : List String) (dv : List (String × PyVal)) (maxA : ℕ) (text : String)
    (hfail : (extract text).1 = none) :
    (repair_json_with_llm pyStr extract repairFn rk dv maxA text).2 ≤ maxA ∧
    (maxA ≠ 0 → repairFn (mkRepairPrompt rk text) = text →
      repair_json_with_llm pyStr extract repairFn rk dv maxA text =
        (.ok (.pdict (defaultsObject rk dv)), 1)) ∧
    ((repair_json_with_llm pyStr extract repairFn rk dv maxA text).1 =
        .ok (.pdict (defaultsObject rk dv)) ∨
     ∃ t' pj, (extract t').1 = some pj ∧
       (repair_json_with_llm pyStr extract repairFn rk dv maxA text).1 =
         validate_and_fix_json_structure pyStr pj rk dv) := by
  have hspec := repairLoopAux_spec pyStr extract repairFn rk dv maxA text
  have hred : repair_json_with_llm pyStr extract repairFn rk dv maxA text =
      repairLoopAux pyStr extract repairFn rk dv maxA text := by
    simp [repair_json_with_llm, hfail]
  refine ⟨by rw [hred]; exact hspec.1, ?_, by rw [hred]; exact hspec.2⟩
  intro hpos hid
  rw [hred]
  cases maxA with
  | zero => exact absurd rfl hpos
  | succ n => simp [repairLoopAux, hid]

/-- Witness for C7 at the fixture extraction/repair functions. -/
theorem repair_attempts_bounded_witness :
    (extractC7 "oops").1 = none ∧
    ((repair_json_with_llm (fun _ => "") extractC7 repairFnC7 stdRequiredKeys
        stdDefaults 1 "oops").2 ≤ 1 ∧
     (1 ≠ 0 → repairFnC7 (mkRepairPrompt stdRequiredKeys "oops") = "oops" →
       repair_json_with_llm (fun _ => "") extractC7 repairFnC7 stdRequiredKeys
         stdDefaults 1 "oops" =
         (.ok (.pdict (defaultsObject stdRequiredKeys stdDefaults)), 1)) ∧
     ((repair_json_with_llm (fun _ => "") extractC7 repairFnC7 stdRequiredKeys
          stdDefaults 1 "oops").1 =
         .ok (.pdict (defaultsObject stdRequiredKeys stdDefaults)) ∨
      ∃ t' pj, (extractC7 t').1 = some pj ∧
        (repair_json_with_llm (fun _ => "") extractC7 repairFnC7 stdRequiredKeys
            stdDefaults 1 "oops").1 =
          validate_and_fix_json_structure (fun _ => "") pj stdRequiredKeys stdDefaults)) :=
  ⟨rfl,
   repair_attempts_bounded (fun _ => "") extractC7 repairFnC7 stdRequiredKeys
     stdDefaults 1 "oops" rfl⟩

/-! ### Substitution completeness -/

/-- C8 counterexample: the caller-supplied value for placeholder `a`
contains the `[a]` token itself.  `process_template` succeeds, `a` is a
placeholder of the pattern and is caller-supplied, yet the rendered prompt
still contains the literal `[a]` token, so the claim as stated is
false. -/
theorem substituted_value_reintroduces_token :
    ((process_template (fun _ => some tmplC8) "t".data
        [("a".data, "oops [a] oops".data)]).1).isSome = true ∧
    "a".data ∈ findTokens ("Say [a] now.".data) ∧
    hasSubstr (tokenOf "a".data)
      (((process_template (fun _ => some tmplC8) "t".data
          [("a".data, "oops [a] oops".data)]).1).getD []) = true := by
  refine ⟨?_, ?_, ?_⟩ <;> decide

theorem isWordChar_ne_lbrack {c : Char} (h : isWordChar c = true) : c ≠ '[' := by
  intro hc; subst hc; exact absurd h (by decide)

theorem takeWhile_append_all (p : Char → Bool) :
    ∀ (u : List Char), u.all p = true → ∀ v, (u ++ v).takeWhile p = u ++ v.takeWhile p := by
  intro u
  induction u with
  | nil => intro _ v; simp
  | cons c cs ih =>
    intro h v
    simp only [List.all_cons, Bool.and_eq_true] at h
    simp [List.takeWhile, h.1, ih h.2 v]

theorem dropWhile_append_all (p : Char → Bool) :
    ∀ (u : List Char), u.all p = true → ∀ v, (u ++ v).dropWhile p = v.dropWhile p := by
  intro u
  induction u with
  | nil => intro _ v; simp
  | cons c cs ih =>
    intro h v
    simp only [List.all_cons, Bool.and_eq_true] at h
    simp [List.dropWhile, h.1, ih h.2 v]

theorem mem_dedupFirst {x : Str} : ∀ {l : List Str}, x ∈ dedupFirst l ↔ x ∈ l := by
  intro l
  induction l with
  | nil => simp [dedupFirst]
  | cons y ys ih =>
    simp only [dedupFirst, List.mem_cons, List.mem_filter]
    constructor
    · rintro (h | ⟨h, _⟩)
      · exact Or.inl h
      · exact Or.inr (ih.mp h)
    · rintro (h | h)
      · exact Or.inl h
      · by_cases hxy : x = y
        · exact Or.inl hxy
        · exact Or.inr ⟨ih.mpr h, by simpa using hxy⟩

theorem phNames_substSegs {x n : Str} (v : Str) :
    ∀ {segs : List Seg}, x ∈ phNames (substSegs n v segs) →
      x ∈ phNames segs ∧ x ≠ n := by
  intro segs
  induction segs with
  | nil => simp [substSegs, phNames]
  | cons sg rest ih =>
    match sg with
    | .lit s => simpa [substSegs, phNames] using ih
    | .ph m =>
      by_cases hmn : m = n
      · intro h
        simp only [substSegs, if_pos hmn, phNames] at h
        obtain ⟨h1, h2⟩ := ih h
        exact ⟨by simp [phNames, h1], h2⟩
      · intro h
        simp only [substSegs, if_neg hmn, phNames, List.mem_cons] at h
        rcases h with h | h
        · subst h; exact ⟨by simp [phNames], hmn⟩
        · obtain ⟨h1, h2⟩ := ih h
          exact ⟨by simp [phNames, h1], h2⟩

theorem segOK_substSegs {n v : Str} (hv : v.all (fun c => c ≠ '[') = true) :
    ∀ {segs : List Seg}, (∀ sg ∈ segs, segOK sg = true) →
      ∀ sg ∈ substSegs n v segs, segOK sg = true := by
  intro segs
  induction segs with
  | nil => simp [substSegs]
  | cons sg0 rest ih =>
    intro hok sg hsg
    match sg0 with
    | .lit s =>
      simp only [substSegs, List.mem_cons] at hsg
      rcases hsg with h | h
      · subst h; exact hok _ (by simp)
      · exact ih (fun s hs => hok s (by simp [hs])) _ h
    | .ph m =>
      simp only [substSegs, List.mem_cons] at hsg
      rcases hsg with h | h
      · subst h
        by_cases hmn : m = n
        · simpa [if_pos hmn, segOK] using hv
        · simp only [if_neg hmn]
          exact hok _ (by simp)
      · exact ih (fun s hs => hok s (by simp [hs])) _ h

theorem phNames_ok :
    ∀ {segs : List Seg}, (∀ sg ∈ segs, segOK sg = true) →
      ∀ x ∈ phNames segs, x.isEmpty = false ∧ x.all isWordChar = true := by
  intro segs
  induction segs with
  | nil => simp [phNames]
  | cons sg rest ih =>
    intro hok x hx
    match sg with
    | .lit s => exact ih (fun s hs => hok s (by simp [hs])) x (by simpa [phNames] using hx)
    | .ph m =>
      simp only [phNames, List.mem_cons] at hx
      rcases hx with h | h
      · subst h
        have := hok (.ph x) (by simp)
        simp only [segOK, Bool.and_eq_true, Bool.not_eq_true'] at this
        exact this
      · exact ih (fun s hs => hok s (by simp [hs])) x h

theorem flatten_noLB_of_no_ph :
    ∀ {segs : List Seg}, (∀ sg ∈ segs, segOK sg = true) →
      (∀ x ∈ phNames segs, False) →
      (flattenSegs segs).all (fun c => c ≠ '[') = true := by
  intro segs
  induction segs with
  | nil => simp [flattenSegs]
  | cons sg rest ih =>
    intro hok hph
    match sg with
    | .lit s =>
      simp only [flattenSegs, List.all_append, Bool.and_eq_true]
      refine ⟨?_, ih (fun s hs => hok s (by simp [hs])) (fun x hx => hph x (by simpa [phNames] using hx))⟩
      simpa [segOK] using hok (.lit s) (by simp)
    | .ph m => exact absurd (by simp [phNames]) (fun h => hph m h)

theorem isWordChar_ne_rbrack {c : Char} (h : isWordChar c = true) : c ≠ ']' := by
  intro hc; subst hc; exact absurd h (by decide)

theorem isPrefixOf_self_append : ∀ (l w : List Char), l.isPrefixOf (l ++ w) = true := by
  intro l w
  induction l with
  | nil => simp [List.isPrefixOf]
  | cons c cs ih => simp [List.isPrefixOf, ih]

theorem token_not_prefix :
    ∀ (n m : Str), n.all isWordChar = true → m.all isWordChar = true → n ≠ m →
      ∀ t, (n ++ [']']).isPrefixOf (m ++ ']' :: t) = false := by
  intro n
  induction n with
  | nil =>
    intro m hn hm hne t
    cases m with
    | nil => exact absurd rfl hne
    | cons b m' =>
      have hb : isWordChar b = true := by
        simp only [List.all_cons, Bool.and_eq_true] at hm; exact hm.1
      have hbne : (']' : Char) ≠ b := fun h => isWordChar_ne_rbrack hb h.symm
      simp [List.isPrefixOf, hbne]
  | cons a n' ih =>
    intro m hn hm hne t
    have ha : isWordChar a = true := by
      simp only [List.all_cons, Bool.and_eq_true] at hn; exact hn.1
    cases m with
    | nil =>
      have hane : a ≠ ']' := isWordChar_ne_rbrack ha
      simp [List.isPrefixOf, hane]
    | cons b m' =>
      by_cases hab : a = b
      · subst hab
        have hne' : n' ≠ m' := fun h => hne (by rw [h])
        have hn' : n'.all isWordChar = true := by
          simp only [List.all_cons, Bool.and_eq_true] at hn; exact hn.2
        have hm' : m'.all isWordChar = true := by
          simp only [List.all_cons, Bool.and_eq_true] at hm; exact hm.2
        simp [List.isPrefixOf, ih m' hn' hm' hne' t]
      · simp [List.isPrefixOf, hab]

theorem replaceAllAux_append_noLB (pat rep : Str) (p' : Str) (hpat : pat = '[' :: p') :
    ∀ (u : Str), u.all (fun c => c ≠ '[') = true →
      ∀ w fuel, u.length ≤ fuel →
        replaceAllAux pat rep fuel (u ++ w) =
          u ++ replaceAllAux pat rep (fuel - u.length) w := by
  intro u
  induction u with
  | nil => intro _ w fuel _; simp
  | cons c cs ih =>
    intro hu w fuel hfuel
    simp only [List.all_cons, Bool.and_eq_true] at hu
    cases fuel with
    | zero => exact absurd hfuel (by simp)
    | succ f =>
      have hc : c ≠ '[' := by simpa using hu.1
      have hpre : pat.isPrefixOf (c :: (cs ++ w)) = false := by
        subst hpat
        have : ('[' : Char) ≠ c := fun h => hc h.symm
        simp [List.isPrefixOf, this]
      simp only [List.cons_append, replaceAllAux, List.append_eq, hpre,
        Bool.and_false, if_false]
      rw [ih hu.2 w f (by simp at hfuel; omega)]
      simp [Nat.succ_sub_succ]

theorem replaceAllAux_cons_pos (pat rep : Str) (f : ℕ) (c : Char) (cs : Str)
    (h : (!pat.isEmpty && pat.isPrefixOf (c :: cs)) = true) :
    replaceAllAux pat rep (f + 1) (c :: cs) =
      rep ++ replaceAllAux pat rep f (List.drop (pat.length - 1) cs) := by
  simp [replaceAllAux, h]

theorem replaceAllAux_cons_neg (pat rep : Str) (f : ℕ) (c : Char) (cs : Str)
    (h : (!pat.isEmpty && pat.isPrefixOf (c :: cs)) = false) :
    replaceAllAux pat rep (f + 1) (c :: cs) = c :: replaceAllAux pat rep f cs := by
  simp [replaceAllAux, h]

/-- On a well-formed flattened pattern, `str.replace` of the `[n]` token by
`v` acts exactly as the segment-level substitution: it replaces the `n`
placeholders and leaves everything else (including other placeholders)
intact. -/
theorem replaceAllAux_flatten (n v : Str) (hn : n.all isWordChar = true) :
    ∀ (segs : List Seg), (∀ sg ∈ segs, segOK sg = true) →
      ∀ fuel, (flattenSegs segs).length ≤ fuel →
        replaceAllAux (tokenOf n) v fuel (flattenSegs segs) =
          flattenSegs (substSegs n v segs) := by
  intro segs
  induction segs with
  | nil =>
    intro _ fuel _
    cases fuel <;> simp [flattenSegs, substSegs, replaceAllAux]
  | cons sg rest ih =>
    intro hok fuel hfuel
    have hokRest : ∀ s ∈ rest, segOK s = true := fun s hs => hok s (by simp [hs])
    match sg with
    | .lit s =>
      have hs : s.all (fun c => c ≠ '[') = true := by
        simpa [segOK] using hok (.lit s) (by simp)
      have hlen : s.length ≤ fuel := by
        simp [flattenSegs, List.length_append] at hfuel; omega
      have hstep := replaceAllAux_append_noLB (tokenOf n) v (n ++ [']']) rfl s hs
        (flattenSegs rest) fuel hlen
      simp only [flattenSegs] at hstep ⊢
      rw [hstep, ih hokRest (fuel - s.length)
        (by simp [flattenSegs, List.length_append] at hfuel ⊢; omega)]
    | .ph m =>
      have hm : m.all isWordChar = true ∧ m.isEmpty = false := by
        have := hok (.ph m) (by simp)
        simp only [segOK, Bool.and_eq_true, Bool.not_eq_true'] at this
        exact ⟨this.2, this.1⟩
      cases fuel with
      | zero =>
        exfalso
        simp [flattenSegs, tokenOf, List.length_append] at hfuel
      | succ f =>
        have hflat : flattenSegs (Seg.ph m :: rest) =
            '[' :: ((m ++ [']']) ++ flattenSegs rest) := by
          simp [flattenSegs, tokenOf]
        by_cases hmn : m = n
        · subst hmn
          -- the token matches literally
          have hcond : (!(tokenOf m).isEmpty &&
              (tokenOf m).isPrefixOf ('[' :: ((m ++ [']']) ++ flattenSegs rest))) = true := by
            have hpre := isPrefixOf_self_append (tokenOf m) (flattenSegs rest)
            have : tokenOf m ++ flattenSegs rest =
                '[' :: ((m ++ [']']) ++ flattenSegs rest) := by
              simp [tokenOf]
            rw [this] at hpre
            simp [tokenOf, hpre]
          rw [hflat, replaceAllAux_cons_pos _ _ _ _ _ hcond,
            show (tokenOf m).length - 1 = (m ++ [']']).length by simp [tokenOf],
            List.drop_left, ih hokRest f
              (by simp [flattenSegs, tokenOf, List.length_append] at hfuel ⊢; omega)]
          simp [substSegs, flattenSegs]
        · -- a different placeholder: no match at the bracket, then skip over it
          have hcond : (!(tokenOf n).isEmpty &&
              (tokenOf n).isPrefixOf ('[' :: ((m ++ [']']) ++ flattenSegs rest))) = false := by
            have hpre := token_not_prefix n m hn hm.1 (fun h => hmn (h.symm))
              (flattenSegs rest)
            have hassoc : (m ++ [']']) ++ flattenSegs rest =
                m ++ (']' :: flattenSegs rest) := by simp
            simp [tokenOf, List.isPrefixOf, hassoc, hpre]
          rw [hflat, replaceAllAux_cons_neg _ _ _ _ _ hcond]
          have hu : (m ++ [']']).all (fun c => c ≠ '[') = true := by
            simp only [List.all_append, Bool.and_eq_true]
            constructor
            · exact List.all_eq_true.mpr
                (fun c hc => by
                  simpa using isWordChar_ne_lbrack (List.all_eq_true.mp hm.1 c hc))
            · simp
          rw [replaceAllAux_append_noLB (tokenOf n) v (n ++ [']']) rfl
              (m ++ [']']) hu (flattenSegs rest) f
              (by simp [flattenSegs, tokenOf, List.length_append] at hfuel ⊢; omega),
            ih hokRest (f - (m ++ [']']).length)
              (by simp [flattenSegs, tokenOf, List.length_append] at hfuel ⊢; omega)]
          simp [substSegs, flattenSegs, if_neg hmn, tokenOf]

theorem findTokensAux_append_noLB :
    ∀ (u : Str), u.all (fun c => c ≠ '[') = true →
      ∀ w fuel, u.length ≤ fuel →
        findTokensAux fuel (u ++ w) = findTokensAux (fuel - u.length) w := by
  intro u
  induction u with
  | nil => intro _ w fuel _; simp
  | cons c cs ih =>
    intro hu w fuel hfuel
    simp only [List.all_cons, Bool.and_eq_true] at hu
    cases fuel with
    | zero => exact absurd hfuel (by simp)
    | succ f =>
      have hc : ¬ (c = '[') := by simpa using hu.1
      simp only [List.cons_append, findTokensAux, List.append_eq, if_neg hc]
      rw [ih hu.2 w f (by simp at hfuel; omega)]
      simp [Nat.succ_sub_succ]

/-- On a well-formed flattened pattern, the `VAR_PATTERN` scan finds exactly
the placeholder names, in order. -/
theorem findTokens_flatten :
    ∀ (segs : List Seg), (∀ sg ∈ segs, segOK sg = true) →
      ∀ fuel, (flattenSegs segs).length ≤ fuel →
        findTokensAux fuel (flattenSegs segs) = phNames segs := by
  intro segs
  induction segs with
  | nil =>
    intro _ fuel _
    cases fuel <;> simp [flattenSegs, phNames, findTokensAux]
  | cons sg rest ih =>
    intro hok fuel hfuel
    have hokRest : ∀ s ∈ rest, segOK s = true := fun s hs => hok s (by simp [hs])
    match sg with
    | .lit s =>
      have hs : s.all (fun c => c ≠ '[') = true := by
        simpa [segOK] using hok (.lit s) (by simp)
      have hlen : s.length ≤ fuel := by
        simp [flattenSegs, List.length_append] at hfuel; omega
      simp only [flattenSegs]
      rw [findTokensAux_append_noLB s hs (flattenSegs rest) fuel hlen,
        ih hokRest (fuel - s.length)
          (by simp [flattenSegs, List.length_append] at hfuel ⊢; omega)]
      simp [phNames]
    | .ph m =>
      have hm : m.all isWordChar = true ∧ m.isEmpty = false := by
        have := hok (.ph m) (by simp)
        simp only [segOK, Bool.and_eq_true, Bool.not_eq_true'] at this
        exact ⟨this.2, this.1⟩
      cases fuel with
      | zero =>
        exfalso
        simp [flattenSegs, tokenOf, List.length_append] at hfuel
      | succ f =>
        have hflat : flattenSegs (Seg.ph m :: rest) =
            '[' :: (m ++ (']' :: flattenSegs rest)) := by
          simp [flattenSegs, tokenOf]
        have h1 : (m ++ (']' :: flattenSegs rest)).takeWhile isWordChar = m := by
          rw [takeWhile_append_all isWordChar m hm.1]
          simp only [List.takeWhile, (by decide : isWordChar ']' = false),
            List.append_nil]
        have h2 : (m ++ (']' :: flattenSegs rest)).dropWhile isWordChar =
            ']' :: flattenSegs rest := by
          rw [dropWhile_append_all isWordChar m hm.1]
          simp only [List.dropWhile, (by decide : isWordChar ']' = false)]
        rw [hflat]
        simp only [findTokensAux, h1, h2, hm.2]
        rw [ih hokRest f
          (by simp [flattenSegs, tokenOf, List.length_append] at hfuel ⊢; omega)]
        simp [phNames]

/-- The substitution fold leaves no `'['` in the prompt, provided the
pattern is well formed, every placeholder name is in the processed name
list, and every processed name is a word-character name whose resolved
value is `'['`-free. -/
theorem substituteVars_noLB (resolve : Str → Str) :
    ∀ (names : List Str) (segs : List Seg),
      (∀ sg ∈ segs, segOK sg = true) →
      (∀ x ∈ phNames segs, x ∈ names) →
      (∀ nm ∈ names, nm.all isWordChar = true ∧
        (resolve nm).all (fun c => c ≠ '[') = true) →
      (substituteVars resolve names (flattenSegs segs)).all
        (fun c => c ≠ '[') = true := by
  intro names
  induction names with
  | nil =>
    intro segs hok hsub _
    simpa [substituteVars] using
      flatten_noLB_of_no_ph hok (fun x hx => by simpa using hsub x hx)
  | cons n ns ih =>
    intro segs hok hsub hnames
    have hn := hnames n (by simp)
    have hstep : substituteVars resolve (n :: ns) (flattenSegs segs) =
        substituteVars resolve ns (flattenSegs (substSegs n (resolve n) segs)) := by
      simp only [substituteVars, List.foldl_cons]
      rw [show replaceAll (tokenOf n) (resolve n) (flattenSegs segs) =
          flattenSegs (substSegs n (resolve n) segs) from
        replaceAllAux_flatten n (resolve n) hn.1 segs hok _ le_rfl]
    rw [hstep]
    refine ih (substSegs n (resolve n) segs)
      (segOK_substSegs hn.2 hok) ?_ (fun nm hnm => hnames nm (by simp [hnm]))
    intro x hx
    obtain ⟨hx1, hx2⟩ := phNames_substSegs (resolve n) hx
    have := hsub x hx1
    simp only [List.mem_cons] at this
    rcases this with h | h
    · exact absurd h hx2
    · exact h

theorem mem_pyStripL {c : Char} {s : Str} (h : c ∈ pyStripL s) : c ∈ s := by
  simp only [pyStripL, List.mem_reverse] at h
  exact (List.dropWhile_sublist _).subset h |> fun h' =>
    (List.dropWhile_sublist _).subset (by simpa using h')

theorem mem_collapseSpacesAux :
    ∀ (fuel : ℕ) (s : Str) (c : Char), c ∈ collapseSpacesAux fuel s →
      c ∈ s ∨ c = ' ' := by
  intro fuel
  induction fuel with
  | zero => intro s c h; exact Or.inl (by simpa [collapseSpacesAux] using h)
  | succ f ih =>
    intro s c h
    match s with
    | [] => simp [collapseSpacesAux] at h
    | d :: ds =>
      by_cases hd : d = ' ' || d = '\t'
      · simp only [collapseSpacesAux, if_pos hd, List.mem_cons] at h
        rcases h with h | h
        · exact Or.inr h
        · rcases ih _ c h with h' | h'
          · exact Or.inl (List.mem_cons_of_mem _
              ((List.dropWhile_sublist _).subset h'))
          · exact Or.inr h'
      · simp only [collapseSpacesAux, if_neg hd, List.mem_cons] at h
        rcases h with h | h
        · exact Or.inl (by simp [h])
        · rcases ih _ c h with h' | h'
          · exact Or.inl (List.mem_cons_of_mem _ h')
          · exact Or.inr h'

theorem mem_collapseBlankLinesAux :
    ∀ (fuel : ℕ) (s : Str) (c : Char), c ∈ collapseBlankLinesAux fuel s →
      c ∈ s ∨ c = '\n' := by
  intro fuel
  induction fuel with
  | zero => intro s c h; exact Or.inl (by simpa [collapseBlankLinesAux] using h)
  | succ f ih =>
    intro s c h
    match s with
    | [] => simp [collapseBlankLinesAux] at h
    | d :: ds =>
      by_cases hd : d = '\n'
      · by_cases hws : (ds.takeWhile pyIsSpace).contains '\n'
        · simp only [collapseBlankLinesAux, if_pos hd, if_pos hws,
            List.mem_cons] at h
          rcases h with h | h | h
          · exact Or.inr h
          · exact Or.inr h
          · rcases ih _ c h with h' | h'
            · exact Or.inl (List.mem_cons_of_mem _ (List.drop_subset _ _ h'))
            · exact Or.inr h'
        · simp only [collapseBlankLinesAux, if_pos hd, if_neg hws,
            List.mem_cons] at h
          rcases h with h | h
          · exact Or.inl (by simp [h])
          · rcases ih _ c h with h' | h'
            · exact Or.inl (List.mem_cons_of_mem _ h')
            · exact Or.inr h'
      · simp only [collapseBlankLinesAux, if_neg hd, List.mem_cons] at h
        rcases h with h | h
        · exact Or.inl (by simp [h])
        · rcases ih _ c h with h' | h'
          · exact Or.inl (List.mem_cons_of_mem _ h')
          · exact Or.inr h'

theorem mem_optimizeTokens {c : Char} {s : Str} (h : c ∈ optimizeTokens s) :
    c ∈ s ∨ c = ' ' ∨ c = '\n' := by
  have h1 := mem_pyStripL h
  rcases mem_collapseBlankLinesAux _ _ _ h1 with h2 | h2
  · rcases mem_collapseSpacesAux _ _ _ h2 with h3 | h3
    · exact Or.inl h3
    · exact Or.inr (Or.inl h3)
  · exact Or.inr (Or.inr h2)

theorem mem_applyConstraints {c : Char} {a b : Str}
    (h : c ∈ applyConstraints a b) : c ∈ a ∨ c ∈ b ∨ c = '\n' := by
  by_cases hb : b.isEmpty
  · simp only [applyConstraints, if_pos hb] at h
    exact Or.inl h
  · simp only [applyConstraints, if_neg hb, List.mem_append, List.mem_cons] at h
    rcases h with ((h | h) | h) | h
    · exact Or.inl (mem_pyStripL h)
    · have : c = '\n' := by
        rcases h with h | h
        · exact h
        · simpa using h
      exact Or.inr (Or.inr this)
    · exact Or.inr (Or.inl h)
    · have : c = '\n' := by simpa using h
      exact Or.inr (Or.inr this)

theorem hasSubstr_head_mem :
    ∀ {x : Char} {p s : Str}, hasSubstr (x :: p) s = true → x ∈ s := by
  intro x p s
  induction s with
  | nil => simp [hasSubstr]
  | cons c cs ih =>
    intro h
    simp only [hasSubstr, Bool.or_eq_true] at h
    rcases h with h | h
    · simp only [List.isPrefixOf, Bool.and_eq_true, beq_iff_eq] at h
      rw [h.1]
      exact List.mem_cons_self c cs
    · exact List.mem_cons_of_mem _ (ih h)

/-- C8 (amended): for a template whose pattern is a well-formed alternation
of `'['`-free literal text and `[name]` placeholders, whenever every
placeholder's resolved value (caller-supplied, template default, or the
empty-string fallback) and the formatted constraint block are free of
`'['`, the rendered prompt contains no literal `[nm]` token for *any* name
whatsoever.  (The unamended claim fails because a substituted value can
reintroduce a token — see the counterexample.) -/
theorem process_template_no_unsubstituted_tokens
    (loader : Str → Option Template) (name : Str) (vars : List (Str × Str))
    (t : Template) (segs : List Seg) (tid tty : Str)
    (hload : loader name = some t)
    (hid : t.id = some tid) (hty : t.ttype = some tty)
    (hpat : t.pattern = some (flattenSegs segs))
    (hsegs : ∀ sg ∈ segs, segOK sg = true)
    (hvals : ∀ n ∈ findTokens (flattenSegs segs),
      (resolveVar vars t.tvariables n).all (fun c => c ≠ '[') = true)
    (hct : (formatConstraints t tty).all (fun c => c ≠ '[') = true) :
    ∃ p, (process_template loader name vars).1 = some p ∧
      ∀ nm : Str, hasSubstr (tokenOf nm) p = false := by
  have hft : findTokens (flattenSegs segs) = phNames segs :=
    findTokens_flatten segs hsegs _ le_rfl
  refine ⟨optimizeTokens (applyConstraints
      (substituteVars (resolveVar vars t.tvariables)
        (dedupFirst (findTokens (flattenSegs segs))) (flattenSegs segs))
      (formatConstraints t tty)), ?_, ?_⟩
  · simp [process_template, hload, hid, hpat, hty]
  · intro nm
    have hsubst : (substituteVars (resolveVar vars t.tvariables)
        (dedupFirst (findTokens (flattenSegs segs)))
        (flattenSegs segs)).all (fun c => c ≠ '[') = true := by
      apply substituteVars_noLB _ _ _ hsegs
      · intro x hx
        rw [hft]
        exact mem_dedupFirst.mpr hx
      · intro nm' hnm'
        have hmem : nm' ∈ phNames segs := by
          rw [hft] at hnm'
          exact mem_dedupFirst.mp hnm'
        refine ⟨(phNames_ok hsegs nm' hmem).2, ?_⟩
        exact hvals nm' (by rw [hft]; exact hmem)
    have hall : ∀ c ∈ optimizeTokens (applyConstraints
        (substituteVars (resolveVar vars t.tvariables)
          (dedupFirst (findTokens (flattenSegs segs))) (flattenSegs segs))
        (formatConstraints t tty)), c ≠ '[' := by
      intro c hc
      rcases mem_optimizeTokens hc with h | h | h
      · rcases mem_applyConstraints h with h' | h' | h'
        · simpa using List.all_eq_true.mp hsubst c h'
        · simpa using List.all_eq_true.mp hct c h'
        · subst h'; decide
      · subst h; decide
      · subst h; decide
    cases hb : hasSubstr (tokenOf nm) (optimizeTokens (applyConstraints
        (substituteVars (resolveVar vars t.tvariables)
          (dedupFirst (findTokens (flattenSegs segs))) (flattenSegs segs))
        (formatConstraints t tty))) with
    | false => rfl
    | true =>
      exact absurd (hall '[' (hasSubstr_head_mem (by simpa [tokenOf] using hb)))
        (by simp)

/-- Witness for the amended C8 theorem at the concrete fixture template. -/
theorem process_template_no_unsubstituted_tokens_witness :
    (∀ sg ∈ segsW8, segOK sg = true) ∧
    tmplW8.pattern = some (flattenSegs segsW8) ∧
    (∀ n ∈ findTokens (flattenSegs segsW8),
      (resolveVar [("name".data, "World".data)] tmplW8.tvariables n).all
        (fun c => c ≠ '[') = true) ∧
    (∃ p, (process_template (fun _ => some tmplW8) "w".data
        [("name".data, "World".data)]).1 = some p ∧
      ∀ nm : Str, hasSubstr (tokenOf nm) p = false) :=
  ⟨by decide, by decide, by decide,
   process_template_no_unsubstituted_tokens (fun _ => some tmplW8) "w".data
     [("name".data, "World".data)] tmplW8 segsW8 "w".data "generation".data
     rfl rfl rfl (by decide) (by decide) (by decide) (by decide)⟩

end EdgePrompt
